import Mathlib

/-!
A verification development for the Conclave cardinal-scraping pipeline.

The two files under study are `scrapers/profile_scraper.py` (headless-browser
pass and pure HTML attribute extractor) and `scrapers/reasoning_profile_data.py`
(reasoning-service pass: response parsing, rating conversion, merge).

Python strings are modelled as `List Char`; Python dict records as structures
with `Option` fields (a `none` field models an absent key); fallible Python
code as `Except PyErr`; the values produced by `json.loads` as the inductive
`JVal` (restricted to integers and escape-free strings, which covers every
input used below).  Third-party effects (Playwright, requests, the Groq API)
are supplied through explicit environment records so that the try/except
structure of the Python code becomes explicit case analysis.
-/

/-- Python exception classes that the modelled code can raise. -/
inductive PyErr where
  | keyError
  | typeError
  | valueError
  deriving DecidableEq

/-- The opening-brace character, written via its code point. -/
def lbraceC : Char := Char.ofNat 123

/-- The closing-brace character, written via its code point. -/
def rbraceC : Char := Char.ofNat 125

/-- The single-quote character, written via its code point. -/
def squoteC : Char := Char.ofNat 39

/-- ASCII whitespace, as recognised by Python's `str.strip` and the regex
class `\s` (the inputs contain no further Unicode whitespace). -/
def isSpaceCh (c : Char) : Bool :=
  c == ' ' || c == '\t' || c == '\n' || c == '\r' || c == '\x0b' || c == '\x0c'

/-- ASCII decimal digit, the regex class `\d` on the data in scope. -/
def isDigitCh (c : Char) : Bool :=
  '0' ≤ c && c ≤ '9'

/-- Python `str.strip()`: remove leading and trailing whitespace. -/
def pyStrip (s : List Char) : List Char :=
  ((s.dropWhile isSpaceCh).reverse.dropWhile isSpaceCh).reverse

/-- Numeric value of a list of decimal digit characters. -/
def digitsToNat (ds : List Char) : Nat :=
  ds.foldl (fun acc c => acc * 10 + (c.toNat - '0'.toNat)) 0

/-- One decimal digit as a character. -/
def digitCh (n : Nat) : Char := Char.ofNat ('0'.toNat + n)

/-- Decimal digits of a natural number (fuel-based, fuel is always ample). -/
def natToCharsAux : Nat → Nat → List Char → List Char
  | 0, _, acc => acc
  | fuel + 1, n, acc =>
    if n < 10 then digitCh n :: acc
    else natToCharsAux fuel (n / 10) (digitCh (n % 10) :: acc)

/-- Decimal representation of a natural number. -/
def natToChars (n : Nat) : List Char := natToCharsAux (n + 1) n []

/-- Decimal representation of an integer, as Python `str` prints it. -/
def intToChars (n : Int) : List Char :=
  if n < 0 then '-' :: natToChars (-n).toNat else natToChars n.toNat

mutual
/-- A value produced by `json.loads`, restricted to integer numbers and
escape-free strings (every input considered below stays in this fragment).
The arrays and objects are their own inductive types so that all recursion
over values is structural. -/
inductive JVal where
  | jnull
  | jbool (b : Bool)
  | jnum (n : Int)
  | jstr (s : List Char)
  | jarr (xs : JArr)
  | jobj (fs : JObj)

/-- A JSON array. -/
inductive JArr where
  | anil
  | acons (v : JVal) (rest : JArr)

/-- A JSON object: ordered key/value fields, keys unique. -/
inductive JObj where
  | onil
  | ocons (k : List Char) (v : JVal) (rest : JObj)
end

/-- First field with the given key, as Python dict subscription finds it. -/
def objLookup (k : List Char) : JObj → Option JVal
  | .onil => none
  | .ocons k' v rest => if k' == k then some v else objLookup k rest

/-- Key-presence test on an object. -/
def objHasKey (k : List Char) (fs : JObj) : Bool := (objLookup k fs).isSome

/-- Python dict insertion: overwrite in place if the key exists, else append. -/
def objSet (k : List Char) (v : JVal) : JObj → JObj
  | .onil => .ocons k v .onil
  | .ocons k' v' rest =>
    if k' == k then .ocons k' v rest else .ocons k' v' (objSet k v rest)

/-- Build a dict by inserting parsed fields left to right (duplicate keys keep
the first position with the last value, as `json.loads` does). -/
def objFromPairs : JObj → List (List Char × JVal) → JObj
  | acc, [] => acc
  | acc, (k, v) :: rest => objFromPairs (objSet k v acc) rest

/-- Does the array contain the given string?  Python `==` between a string and
a non-string JSON value is `False`, so only `jstr` entries can match. -/
def arrHasStr (k : List Char) : JArr → Bool
  | .anil => false
  | .acons (.jstr s) rest => s == k || arrHasStr k rest
  | .acons _ rest => arrHasStr k rest

/-- JSON whitespace accepted between tokens by `json.loads`. -/
def jsonWs (c : Char) : Bool :=
  c == ' ' || c == '\t' || c == '\n' || c == '\r'

/-- Body of a JSON string literal after the opening quote; escape sequences are
outside the modelled fragment (no input below contains a backslash). -/
def parseStrBody : List Char → Option (List Char × List Char)
  | [] => none
  | c :: rest =>
    if c == '"' then some ([], rest)
    else if c == '\\' then none
    else
      match parseStrBody rest with
      | some (s, r) => some (c :: s, r)
      | none => none

/-- A number token continued by `.`, `e` or `E` would be a float, which is
outside the modelled fragment. -/
def numContinuesAsFloat : List Char → Bool
  | [] => false
  | c :: _ => c == '.' || c == 'e' || c == 'E'

/-- An integer JSON number token. -/
def parseNum (s : List Char) : Option (JVal × List Char) :=
  match s with
  | '-' :: rest =>
    let ds := rest.takeWhile isDigitCh
    let r := rest.dropWhile isDigitCh
    if ds.isEmpty then none
    else if numContinuesAsFloat r then none
    else some (.jnum (-(Int.ofNat (digitsToNat ds))), r)
  | _ =>
    let ds := s.takeWhile isDigitCh
    let r := s.dropWhile isDigitCh
    if ds.isEmpty then none
    else if numContinuesAsFloat r then none
    else some (.jnum (Int.ofNat (digitsToNat ds)), r)

mutual
/-- One JSON value, returning the unconsumed remainder.  Fuel only bounds the
recursion; `jsonLoads` always supplies enough of it. -/
def parseVal : Nat → List Char → Option (JVal × List Char)
  | 0, _ => none
  | fuel + 1, s =>
    match s.dropWhile jsonWs with
    | [] => none
    | c :: rest =>
      if c == '"' then
        match parseStrBody rest with
        | some (str, r) => some (.jstr str, r)
        | none => none
      else if c == 't' then
        if "rue".toList.isPrefixOf rest then some (.jbool true, rest.drop 3) else none
      else if c == 'f' then
        if "alse".toList.isPrefixOf rest then some (.jbool false, rest.drop 4) else none
      else if c == 'n' then
        if "ull".toList.isPrefixOf rest then some (.jnull, rest.drop 3) else none
      else if c == '[' then
        match rest.dropWhile jsonWs with
        | ']' :: r => some (.jarr .anil, r)
        | s' =>
          match parseItems fuel s' with
          | some (xs, r) => some (.jarr xs, r)
          | none => none
      else if c == lbraceC then
        match rest.dropWhile jsonWs with
        | s' =>
          if s'.head? == some rbraceC then some (.jobj .onil, s'.tail)
          else
            match parseFields fuel s' with
            | some (ps, r) => some (.jobj (objFromPairs .onil ps), r)
            | none => none
      else if c == '-' || isDigitCh c then parseNum (c :: rest)
      else none

/-- Comma-separated values up to the closing bracket. -/
def parseItems : Nat → List Char → Option (JArr × List Char)
  | 0, _ => none
  | fuel + 1, s =>
    match parseVal fuel s with
    | none => none
    | some (v, r) =>
      match r.dropWhile jsonWs with
      | ',' :: r2 =>
        match parseItems fuel r2 with
        | some (vs, r3) => some (.acons v vs, r3)
        | none => none
      | ']' :: r2 => some (.acons v .anil, r2)
      | _ => none

/-- Comma-separated `"key": value` fields up to the closing brace. -/
def parseFields : Nat → List Char → Option (List (List Char × JVal) × List Char)
  | 0, _ => none
  | fuel + 1, s =>
    match s with
    | '"' :: r =>
      (match parseStrBody r with
       | none => none
       | some (k, r2) =>
         match r2.dropWhile jsonWs with
         | ':' :: r3 =>
           match parseVal fuel r3 with
           | none => none
           | some (v, r4) =>
             match r4.dropWhile jsonWs with
             | ',' :: r5 =>
               (match (r5.dropWhile jsonWs) with
                | r6 =>
                  match parseFields fuel r6 with
                  | some (ps, r7) => some ((k, v) :: ps, r7)
                  | none => none)
             | r5 =>
               if r5.head? == some rbraceC then some ([(k, v)], r5.tail)
               else none
         | _ => none)
    | _ => none
end

/-- `json.loads`: parse exactly one JSON document, allowing surrounding
whitespace, and fail on trailing garbage. -/
def jsonLoads (s : List Char) : Option JVal :=
  match parseVal (2 * s.length + 2) s with
  | some (v, r) => if (r.dropWhile jsonWs).isEmpty then some v else none
  | none => none

/-! ## Python string helpers used by both scrapers -/

/-- `str.find(c)`: index of the first occurrence, or `-1`. -/
def idxOfCh (c : Char) : List Char → Option Nat
  | [] => none
  | a :: as => if a == c then some 0 else (idxOfCh c as).map (· + 1)

/-- Python `str.find` for a single character. -/
def pyFind (c : Char) (s : List Char) : Int :=
  match idxOfCh c s with
  | some i => Int.ofNat i
  | none => -1

/-- Python `str.rfind` for a single character. -/
def pyRFind (c : Char) (s : List Char) : Int :=
  match idxOfCh c s.reverse with
  | some i => Int.ofNat (s.length - 1 - i)
  | none => -1

/-- Python slice `s[a:b]` for the non-negative indices used here. -/
def pySlice (s : List Char) (a b : Int) : List Char :=
  ((s.drop a.toNat).take (b - a).toNat)

/-- `int(...)` on a string: strip whitespace, optional sign, decimal digits;
anything else raises `ValueError`. -/
def pyIntOfStr (s : List Char) : Except PyErr Int :=
  match pyStrip s with
  | '-' :: ds =>
    if ds.isEmpty || !ds.all isDigitCh then .error .valueError
    else .ok (-(Int.ofNat (digitsToNat ds)))
  | '+' :: ds =>
    if ds.isEmpty || !ds.all isDigitCh then .error .valueError
    else .ok (Int.ofNat (digitsToNat ds))
  | ds =>
    if ds.isEmpty || !ds.all isDigitCh then .error .valueError
    else .ok (Int.ofNat (digitsToNat ds))

/-- `int(...)` on a parsed JSON value (floats are outside the model). -/
def pyInt : JVal → Except PyErr Int
  | .jnum n => .ok n
  | .jbool b => .ok (if b then 1 else 0)
  | .jstr s => pyIntOfStr s
  | _ => .error .typeError

mutual
/-- Python `repr` of a parsed JSON value (used by `str` on containers). -/
def pyReprV : JVal → List Char
  | .jnull => "None".toList
  | .jbool true => "True".toList
  | .jbool false => "False".toList
  | .jnum n => intToChars n
  | .jstr s => squoteC :: s ++ [squoteC]
  | .jarr xs => '[' :: pyReprArr xs ++ [']']
  | .jobj fs => lbraceC :: pyReprObj fs ++ [rbraceC]

/-- Comma-separated reprs of array elements. -/
def pyReprArr : JArr → List Char
  | .anil => []
  | .acons v .anil => pyReprV v
  | .acons v rest => pyReprV v ++ ", ".toList ++ pyReprArr rest

/-- Comma-separated reprs of object fields. -/
def pyReprObj : JObj → List Char
  | .onil => []
  | .ocons k v .onil => squoteC :: k ++ [squoteC] ++ ": ".toList ++ pyReprV v
  | .ocons k v rest =>
    squoteC :: k ++ [squoteC] ++ ": ".toList ++ pyReprV v ++ ", ".toList ++ pyReprObj rest
end

/-- Python `str(...)` of a parsed JSON value. -/
def pyStr : JVal → List Char
  | .jstr s => s
  | .jnum n => intToChars n
  | .jbool true => "True".toList
  | .jbool false => "False".toList
  | .jnull => "None".toList
  | .jarr xs => pyReprV (.jarr xs)
  | .jobj fs => pyReprV (.jobj fs)

/-- Contiguous-substring test (Python `k in s` on strings). -/
def subIn (k : List Char) : List Char → Bool
  | [] => k.isEmpty
  | c :: rest => k.isPrefixOf (c :: rest) || subIn k rest

/-- Python `k in v` on a parsed JSON value: key test on dicts, element test on
lists, substring test on strings, `TypeError` otherwise. -/
def pyIn (k : List Char) : JVal → Except PyErr Bool
  | .jobj fs => .ok (objHasKey k fs)
  | .jarr xs => .ok (arrHasStr k xs)
  | .jstr s => .ok (subIn k s)
  | _ => .error .typeError

/-- Python `v[k]` with a string key: dict lookup (`KeyError` when absent),
`TypeError` on any non-dict. -/
def pySubscript (v : JVal) (k : List Char) : Except PyErr JVal :=
  match v with
  | .jobj fs =>
    match objLookup k fs with
    | some x => .ok x
    | none => .error .keyError
  | _ => .error .typeError

/-! ## The hidden-fragment regular expressions
(`profile_scraper.py`, `extract_issues_from_html`, lines 160-173)

`re.search(r"\[value\] =>\s*(\d+)", t)` and
`re.search(r"\[label\] =>\s*([^\)]+)", t)` are modelled by a literal
leftmost-match scan.  Greedy `\s*` never has to backtrack before `\d+`
(whitespace and digits are disjoint); before `[^\)]+` it backtracks at most one
character (a whitespace character is also a `[^\)]` character), which the
label matcher reproduces exactly. -/

/-- The literal part of the value pattern. -/
def valueLit : List Char := "[value] =>".toList

/-- The literal part of the label pattern. -/
def labelLit : List Char := "[label] =>".toList

/-- Try the value pattern anchored at the start of `s`; return the capture. -/
def tryValueAt (s : List Char) : Option (List Char) :=
  if valueLit.isPrefixOf s then
    let rest := s.drop valueLit.length
    let ds := (rest.dropWhile isSpaceCh).takeWhile isDigitCh
    if ds.isEmpty then none else some ds
  else none

/-- Try the label pattern anchored at the start of `s`; return the capture. -/
def tryLabelAt (s : List Char) : Option (List Char) :=
  if labelLit.isPrefixOf s then
    let rest := s.drop labelLit.length
    let ws := rest.takeWhile isSpaceCh
    let grab := (rest.dropWhile isSpaceCh).takeWhile (fun c => c != ')')
    if !grab.isEmpty then some grab
    else if !ws.isEmpty then some [ws.getLastD ' ']
    else none
  else none

/-- `re.search`: try the anchored matcher at each position, left to right. -/
def searchFrom (f : List Char → Option (List Char)) : List Char → Option (List Char)
  | [] => f []
  | c :: cs =>
    match f (c :: cs) with
    | some r => some r
    | none => searchFrom f cs

/-- Leftmost match of the value pattern. -/
def searchValue (s : List Char) : Option (List Char) := searchFrom tryValueAt s

/-- Leftmost match of the label pattern. -/
def searchLabel (s : List Char) : Option (List Char) := searchFrom tryLabelAt s

/-- The shared sentinel string. -/
def unknownS : List Char := "Unknown".toList

/-- Lines 166-169: strip the fragment, search the value pattern, default to
`"Unknown"`. -/
def fragValue (t : List Char) : List Char :=
  match searchValue (pyStrip t) with
  | some d => d
  | none => unknownS

/-- Lines 171-173: strip the fragment, search the label pattern, strip the
capture, default to `"Unknown"`. -/
def fragLabel (t : List Char) : List Char :=
  match searchLabel (pyStrip t) with
  | some g => pyStrip g
  | none => unknownS

/-! ## Data model -/

/-- One attribute record (`issue_title`/`subtitle`/`value`/`label`, with
`explanation` present only on reasoning-derived attributes). -/
structure Attr where
  issue_title : List Char
  subtitle : List Char
  value : List Char
  label : List Char
  explanation : Option JVal

/-- One cardinal record (named `CardinalRecord` because Mathlib already owns
`Cardinal`).  `Option` fields model presence of the dict key; the remaining
static fields are pass-through data, kept opaque. -/
structure CardinalRecord where
  name : Option (List Char)
  profile_url : Option (List Char)
  attributes : Option (List Attr)
  analysis_results : Option JVal
  static_fields : List (List Char × List Char)

/-! ## Parsed HTML

BeautifulSoup's parse tree is modelled directly: the extractor receives the
tree the library would hand it.  `id` and `class` attributes get their own
fields (BeautifulSoup treats `class` as multi-valued); other attributes are an
association list.  The node list is its own inductive type so that traversals
are structural and evaluate inside the kernel. -/

mutual
/-- A parse-tree node: an element or a text fragment. -/
inductive Node where
  | text (s : List Char)
  | elem (tag : List Char) (idAttr : Option (List Char)) (classes : List (List Char))
      (attrs : List (List Char × List Char)) (children : NodeList)

/-- A sequence of sibling nodes. -/
inductive NodeList where
  | nil
  | cons (n : Node) (rest : NodeList)
end

/-- Build a `NodeList` from a `List Node`. -/
def NodeList.ofList : List Node → NodeList
  | [] => .nil
  | n :: ns => .cons n (NodeList.ofList ns)

mutual
/-- A node and all its descendants, in document (preorder) order. -/
def nodeAll : Node → List Node
  | .text s => [.text s]
  | .elem t i c a cs => .elem t i c a cs :: listAll cs

/-- All nodes of a sibling sequence and their descendants, in document order. -/
def listAll : NodeList → List Node
  | .nil => []
  | .cons n ns => nodeAll n ++ listAll ns
end

/-- The descendants of a node (excluding itself), in document order: the
search space of BeautifulSoup's `find`/`find_all` on that node. -/
def descendantsOf : Node → List Node
  | .text _ => []
  | .elem _ _ _ _ cs => listAll cs

mutual
/-- `.text`: concatenation of all text fragments below a node. -/
def nodeText : Node → List Char
  | .text s => s
  | .elem _ _ _ _ cs => listText cs

/-- `.text` over a sibling sequence. -/
def listText : NodeList → List Char
  | .nil => []
  | .cons n ns => nodeText n ++ listText ns
end

mutual
/-- `get_text(strip=True)`: concatenation of the stripped text fragments. -/
def nodeTextStrip : Node → List Char
  | .text s => pyStrip s
  | .elem _ _ _ _ cs => listTextStrip cs

/-- `get_text(strip=True)` over a sibling sequence. -/
def listTextStrip : NodeList → List Char
  | .nil => []
  | .cons n ns => nodeTextStrip n ++ listTextStrip ns
end

mutual
/-- All (parent, descendant) pairs below a node, the descendants in document
order: `find_all` results paired with their `.parent`. -/
def nodePairs : Node → List (Node × Node)
  | .text _ => []
  | .elem t i c a cs => listPairs (.elem t i c a cs) cs

/-- The pairs contributed by a sibling sequence under a given parent. -/
def listPairs (parent : Node) : NodeList → List (Node × Node)
  | .nil => []
  | .cons n ns => (parent, n) :: nodePairs n ++ listPairs parent ns
end

/-- Does the element carry the given tag? -/
def hasTag (t : List Char) : Node → Bool
  | .text _ => false
  | .elem tag _ _ _ _ => tag == t

/-- Element test with tag and `class_=` filter (membership in the
multi-valued class attribute). -/
def tagClass (t cls : List Char) : Node → Bool
  | .text _ => false
  | .elem tag _ classes _ _ => tag == t && classes.contains cls

/-- The `div` with `id="wherehestands"`. -/
def isWhereHeStands (n : Node) : Bool :=
  match n with
  | .text _ => false
  | .elem tag idAttr _ _ _ => tag == "div".toList && idAttr == some "wherehestands".toList

/-- A `div` with class `accordion-heading`. -/
def isHeadingDiv (n : Node) : Bool := tagClass "div".toList "accordion-heading".toList n

/-- A `div` with class `accordion-details`. -/
def isDetailsDiv (n : Node) : Bool := tagClass "div".toList "accordion-details".toList n

/-- A `div` with class `accordion-content`. -/
def isContentDiv (n : Node) : Bool := tagClass "div".toList "accordion-content".toList n

/-- A `span` with class `accordion-title`. -/
def isAccTitleSpan (n : Node) : Bool := tagClass "span".toList "accordion-title".toList n

/-- A `p` with class `accordion-sub-title`. -/
def isSubTitleP (n : Node) : Bool := tagClass "p".toList "accordion-sub-title".toList n

/-- The hidden `div` with attribute `a="b"`. -/
def isHiddenAB (n : Node) : Bool :=
  match n with
  | .text _ => false
  | .elem tag _ _ attrs _ =>
    tag == "div".toList &&
      ((attrs.find? (fun p => p.1 == "a".toList)).map Prod.snd == some "b".toList)

/-- A `div` with class `cardinals-summary-block`. -/
def isSummaryBlock (n : Node) : Bool :=
  tagClass "div".toList "cardinals-summary-block".toList n

/-- A `div` with class `dynamic-entry-content`. -/
def isEntryContent (n : Node) : Bool :=
  tagClass "div".toList "dynamic-entry-content".toList n

/-! ## Reasoning pass (`reasoning_profile_data.py`) -/

/-- The `"error"` key. -/
def errK : List Char := "error".toList

/-- The `"raw_response"` key. -/
def rawK : List Char := "raw_response".toList

/-- The error object of lines 133-134. -/
def errObj (raw : List Char) : JVal :=
  .jobj (.ocons errK (.jstr "Failed to parse model response as JSON".toList)
    (.ocons rawK (.jstr raw) .onil))

/-- Line 65: truncate the profile text to 1500 characters plus an ellipsis. -/
def truncateProfile (p : List Char) : List Char :=
  if 1500 < p.length then p.take 1500 ++ "...".toList else p

/-- Lines 122-125: is there a first `'{'` strictly before the character after
the last `'}'` (`start_idx >= 0 and end_idx > start_idx`)? -/
def bracesFound (t : List Char) : Bool :=
  decide (0 ≤ pyFind lbraceC t) && decide (pyFind lbraceC t < pyRFind rbraceC t + 1)

/-- The substring `analysis_text[start_idx:end_idx]` of line 126. -/
def braceSlice (t : List Char) : List Char :=
  pySlice t (pyFind lbraceC t) (pyRFind rbraceC t + 1)

/-- Lines 120-134: extract the JSON part of the model response.  When a brace
pair is found, only the brace-delimited substring is parsed; the raw text is
parsed only when no brace pair exists; a parse failure yields the error
object. -/
def parseResponse (analysis_text : List Char) : JVal :=
  if bracesFound analysis_text then
    match jsonLoads (braceSlice analysis_text) with
    | some v => v
    | none => errObj analysis_text
  else
    match jsonLoads analysis_text with
    | some v => v
    | none => errObj analysis_text

/-- The summary/profile pair returned by `extract_cardinal_data`. -/
structure FetchedProfile where
  summary : List Char
  profile : List Char

/-- Outcome of the `requests.get` of lines 15-17: either an exception message
(network error, or the `raise_for_status` HTTP error) or the parsed response
document. -/
structure FetchEnv where
  httpRes : Except (List Char) NodeList

/-- Lines 190-202: `get_label_for_rating`.  `int(...)` failures are caught and
give `"Unknown"`; `labels.get` defaults to `"Unknown"` outside 1-5. -/
def get_label_for_rating (rating : JVal) : List Char :=
  match pyInt rating with
  | .error _ => unknownS
  | .ok n =>
    if n == 1 then "Strongly Conservative/Against".toList
    else if n == 2 then "Moderately Conservative/Against".toList
    else if n == 3 then "Neutral/Balanced".toList
    else if n == 4 then "Moderately Progressive/Supports".toList
    else if n == 5 then "Strongly Progressive/Supports".toList
    else unknownS

/-- One appended record of `convert_to_attributes`: subscripting `"rating"`
(twice in the source, for `value` and `label`) and `"explanation"` can raise
`KeyError`/`TypeError`, which propagates. -/
def mkRatingAttr (title sub : List Char) (obj : JVal) : Except PyErr Attr := do
  let rating ← pySubscript obj "rating".toList
  let expl ← pySubscript obj "explanation".toList
  pure ⟨title, sub, pyStr rating, get_label_for_rating rating, some expl⟩

/-- One `if key in container: attributes.append(...)` step of
`convert_to_attributes`: zero or one records, or a propagated exception. -/
def ratingItem (container : JVal) (key title sub : List Char) :
    Except PyErr (List Attr) :=
  match pyIn key container with
  | .error e => .error e
  | .ok false => .ok []
  | .ok true =>
    match pySubscript container key with
    | .error e => .error e
    | .ok obj =>
      match mkRatingAttr title sub obj with
      | .error e => .error e
      | .ok a => .ok [a]

/-- One section of `convert_to_attributes` (`theological_stance` with keys
`conservative`/`reform_leaning`, or `issue_positions` with keys
`lgbtq_policies`/`environmentalism`): when the section key is present, its
container is subscripted and its two dimensions appended in order. -/
def sectionAttrs (analysis_results : JVal)
    (secKey k1 t1 s1 k2 t2 s2 : List Char) : Except PyErr (List Attr) :=
  match pyIn secKey analysis_results with
  | .error e => .error e
  | .ok false => .ok []
  | .ok true =>
    match pySubscript analysis_results secKey with
    | .error e => .error e
    | .ok container =>
      match ratingItem container k1 t1 s1 with
      | .error e => .error e
      | .ok l1 =>
        match ratingItem container k2 t2 s2 with
        | .error e => .error e
        | .ok l2 => .ok (l1 ++ l2)

/-- Lines 140-187: `convert_to_attributes`.  The two `theological_stance`
dimensions are appended, then the two `issue_positions` dimensions, in source
order; `in` tests and subscripts follow Python semantics and can raise on
malformed analysis values, which propagates. -/
def convert_to_attributes (analysis_results : JVal) : Except PyErr (List Attr) :=
  match sectionAttrs analysis_results "theological_stance".toList
      "conservative".toList "Theological Conservatism".toList
      "Level of adherence to traditional theological positions".toList
      "reform_leaning".toList "Reform-Leaning Theology".toList
      "Openness to theological reforms and changes".toList with
  | .error e => .error e
  | .ok theoAttrs =>
    match sectionAttrs analysis_results "issue_positions".toList
        "lgbtq_policies".toList "LGBTQ+ Policies".toList
        "Positions on LGBTQ+ inclusion and related policies".toList
        "environmentalism".toList "Environmentalism".toList
        "Positions on environmental issues and climate change".toList with
    | .error e => .error e
    | .ok issueAttrs => .ok (theoAttrs ++ issueAttrs)

/-- Environment of one reasoning-pass entity: the profile fetch and the Groq
call, each either an exception message or a result. -/
structure ReasonEnv where
  fetchEnv : FetchEnv
  apiRes : Except (List Char) (List Char)

/-- Lines 10-38: `extract_cardinal_data`.  A request exception is caught and
returns `None`; otherwise the summary and profile blocks are extracted with
their textual defaults. -/
def extract_cardinal_data (env : FetchEnv) : Option FetchedProfile :=
  match env.httpRes with
  | .error _ => none
  | .ok soup =>
    some
      { summary :=
          match (listAll soup).find? isSummaryBlock with
          | some d => nodeTextStrip d
          | none => "Summary not found".toList,
        profile :=
          match (listAll soup).find? isEntryContent with
          | some d => nodeTextStrip d
          | none => "Profile not found".toList }

/-- Lines 49-137: `analyze_cardinal_profile`, with the service response
supplied by the environment.  An API exception yields the `API call failed`
error object (lines 136-137); otherwise the response text is parsed by
`parseResponse`. -/
def analyze_cardinal_profile (env : ReasonEnv) : JVal :=
  match env.apiRes with
  | .error e =>
    .jobj (.ocons errK (.jstr ("API call failed: ".toList ++ e)) .onil)
  | .ok analysis_text => parseResponse analysis_text

/-- Lines 205-252: the per-cardinal body of `process_cardinals`.  Absent
`profile_url` → skip; failed fetch → skip; analysis with an `"error"` key →
skip; otherwise append the converted attributes and store the analysis.  The
`in` test and the conversion can raise, which aborts the run. -/
def processCardinal (env : ReasonEnv) (cardinal : CardinalRecord) :
    Except PyErr CardinalRecord :=
  match cardinal.profile_url with
  | none => .ok cardinal
  | some _ =>
    match extract_cardinal_data env.fetchEnv with
    | none => .ok cardinal
    | some _ =>
      let analysis_results := analyze_cardinal_profile env
      match pyIn errK analysis_results with
      | .error e => .error e
      | .ok true => .ok cardinal
      | .ok false =>
        match convert_to_attributes analysis_results with
        | .error e => .error e
        | .ok new_attributes =>
          .ok { cardinal with
                attributes := some (cardinal.attributes.getD [] ++ new_attributes),
                analysis_results := some analysis_results }

/-- `process_cardinals` over the collection, each entity with its environment.
An uncaught exception terminates the run. -/
def process_cardinals :
    List (ReasonEnv × CardinalRecord) → Except PyErr (List CardinalRecord)
  | [] => .ok []
  | (env, c) :: rest =>
    match processCardinal env c with
    | .error e => .error e
    | .ok c' => (process_cardinals rest).map (c' :: ·)

/-! ## HTML attribute extractor (`profile_scraper.py`, lines 104-184) -/

/-- Everything before the first occurrence of `sub` (the whole string when
`sub` does not occur): `s.split(sub)[0]` for the non-empty `sub` used here. -/
def takeBefore (sub : List Char) : List Char → List Char
  | [] => []
  | c :: rest => if sub.isPrefixOf (c :: rest) then [] else c :: takeBefore sub rest

/-- Lines 128-143: the issue title of one accordion item — the
`span.accordion-title` text when present, else the `h3` text cut before
`"See evidence"` and stripped, else the `"Unknown Issue"` sentinel. -/
def issueTitleOf (item : Node) : List Char :=
  match (descendantsOf item).find? (hasTag "h3".toList) with
  | some h3 =>
    (match (descendantsOf h3).find? isAccTitleSpan with
     | some sp => nodeTextStrip sp
     | none => pyStrip (takeBefore "See evidence".toList (nodeTextStrip h3)))
  | none => "Unknown Issue".toList

/-- Lines 155-182: the attribute record of one `accordion-content` section. -/
def contentRecord (issue_title : List Char) (content : Node) : Attr :=
  let subtitle :=
    match (descendantsOf content).find? isSubTitleP with
    | some title_elem => pyStrip (nodeText title_elem)
    | none => "No title found".toList
  match (descendantsOf content).find? isHiddenAB with
  | none => ⟨issue_title, subtitle, unknownS, unknownS, none⟩
  | some hidden_div =>
    ⟨issue_title, subtitle, fragValue (nodeText hidden_div),
      fragLabel (nodeText hidden_div), none⟩

/-- Lines 145-182: the records contributed by one accordion heading, given its
parent.  Without an `accordion-details` block under the parent, the item
contributes nothing. -/
def processItem (parent item : Node) : List Attr :=
  match (descendantsOf parent).find? isDetailsDiv with
  | none => []
  | some details_section =>
    ((descendantsOf details_section).filter isContentDiv).map
      (contentRecord (issueTitleOf item))

/-- Lines 104-184: `extract_issues_from_html` on the parsed document.  Missing
`wherehestands` container → empty list; otherwise every `accordion-heading`
descendant is processed with its parent, in document order. -/
def extract_issues_from_html (soup : NodeList) : List Attr :=
  match (listAll soup).find? isWhereHeStands with
  | none => []
  | some where_he_stands =>
    (((nodePairs where_he_stands).filter (fun q => isHeadingDiv q.2)).map
      (fun q => processItem q.1 q.2)).flatten

/-! ## Browser pass (`profile_scraper.py`, lines 10-101 and 187-208) -/

/-- One iteration of the "load more issues" loop (lines 54-77): the visibility
probe either returns a Boolean or raises, and a visible button's click/wait
either succeeds or raises.  Every exception is caught inside the loop. -/
inductive LoadIter where
  | visFalse
  | visErr
  | visClickOk
  | visClickErr

/-- The loop's only observable effect is its click count (the page content is
supplied separately): it stops at the first invisible probe or exception. -/
def loadMoreClicks : List LoadIter → Nat
  | [] => 0
  | .visFalse :: _ => 0
  | .visErr :: _ => 0
  | .visClickErr :: _ => 0
  | .visClickOk :: rest => 1 + loadMoreClicks rest

/-- Environment of one browser session: navigation, the `#wherehestands`
locator count, the pagination loop, and the final `page.content()`. -/
structure PageEnv where
  gotoRes : Except (List Char) Unit
  whsCount : Except (List Char) Nat
  loadIters : List LoadIter
  contentRes : Except (List Char) NodeList

/-- Lines 10-101: `check_and_extract_where_he_stands`.  The two dict accesses
of lines 20-21 sit before the `try`, so a missing key raises out of the
function; inside the `try`, any browser exception is caught and returns the
record unchanged; a non-empty extraction replaces the `attributes` field and
an empty one leaves the record untouched. -/
def check_and_extract_where_he_stands (env : PageEnv) (profile_data : CardinalRecord) :
    Except PyErr CardinalRecord :=
  match profile_data.profile_url with
  | none => .error .keyError
  | some _ =>
    match profile_data.name with
    | none => .error .keyError
    | some _ =>
      match env.gotoRes with
      | .error _ => .ok profile_data
      | .ok _ =>
        match env.whsCount with
        | .error _ => .ok profile_data
        | .ok cnt =>
          if cnt == 0 then .ok profile_data
          else
            let _click_count := loadMoreClicks env.loadIters
            match env.contentRes with
            | .error _ => .ok profile_data
            | .ok content =>
              let attributes := extract_issues_from_html content
              if attributes.isEmpty then .ok profile_data
              else .ok { profile_data with attributes := some attributes }

/-- Lines 187-208: `process_all_cardinals`.  An uncaught exception terminates
the run; otherwise the updated records are collected in order. -/
def process_all_cardinals :
    List (PageEnv × CardinalRecord) → Except PyErr (List CardinalRecord)
  | [] => .ok []
  | (env, profile) :: rest =>
    match check_and_extract_where_he_stands env profile with
    | .error e => .error e
    | .ok p' => (process_all_cardinals rest).map (p' :: ·)

/-! ## Concrete inputs used in witnesses and counterexamples -/

/-- A stands-section page whose hidden fragment carries the out-of-range
value `9`: `Array ( [value] => 9 [label] => Whatever )`. -/
def hiddenDiv9 : Node :=
  .elem "div".toList none [] [("a".toList, "b".toList)]
    (NodeList.ofList [.text "Array ( [value] => 9 [label] => Whatever )".toList])

/-- The `accordion-content` block around `hiddenDiv9`. -/
def contentDiv9 : Node :=
  .elem "div".toList none ["accordion-content".toList] []
    (NodeList.ofList
      [ .elem "p".toList none ["accordion-sub-title".toList] []
          (NodeList.ofList [.text "Sub".toList]),
        hiddenDiv9 ])

/-- An `accordion-heading` block titled `Environmentalism`. -/
def headingDiv9 : Node :=
  .elem "div".toList none ["accordion-heading".toList] []
    (NodeList.ofList
      [ .elem "h3".toList none [] []
          (NodeList.ofList
            [ .elem "span".toList none ["accordion-title".toList] []
                (NodeList.ofList [.text "Environmentalism".toList]) ]) ])

/-- The `accordion-details` block around `contentDiv9`. -/
def detailsDiv9 : Node :=
  .elem "div".toList none ["accordion-details".toList] []
    (NodeList.ofList [contentDiv9])

/-- The accordion item wrapper holding heading and details. -/
def wrapperDiv9 : Node :=
  .elem "div".toList none [] [] (NodeList.ofList [headingDiv9, detailsDiv9])

/-- A document whose stands section rates `Environmentalism` as `9`. -/
def whsDoc9 : NodeList :=
  NodeList.ofList
    [ .elem "div".toList (some "wherehestands".toList) [] []
        (NodeList.ofList [wrapperDiv9]) ]

/-- The record the extractor produces from `whsDoc9`. -/
def attr9 : Attr :=
  ⟨"Environmentalism".toList, "Sub".toList, "9".toList, "Whatever".toList, none⟩

/-- Like `whsDoc9` but with the in-range fragment
`Array ( [value] => 4 [label] => Supports )`. -/
def whsDoc4 : NodeList :=
  NodeList.ofList
    [ .elem "div".toList (some "wherehestands".toList) [] []
        (NodeList.ofList
          [ .elem "div".toList none [] []
              (NodeList.ofList
                [ headingDiv9,
                  .elem "div".toList none ["accordion-details".toList] []
                    (NodeList.ofList
                      [ .elem "div".toList none ["accordion-content".toList] []
                          (NodeList.ofList
                            [ .elem "p".toList none ["accordion-sub-title".toList] []
                                (NodeList.ofList [.text "Sub".toList]),
                              .elem "div".toList none [] [("a".toList, "b".toList)]
                                (NodeList.ofList
                                  [.text "Array ( [value] => 4 [label] => Supports )".toList]) ]) ]) ]) ]) ]

/-- The record the extractor produces from `whsDoc4`. -/
def attr4 : Attr :=
  ⟨"Environmentalism".toList, "Sub".toList, "4".toList, "Supports".toList, none⟩

/-- A document with no `wherehestands` container. -/
def docNoWhs : NodeList :=
  NodeList.ofList
    [ .elem "div".toList none [] [] (NodeList.ofList [.text "hello".toList]) ]

/-- A document whose stands section exists but is empty. -/
def docWhsEmpty : NodeList :=
  NodeList.ofList
    [ .elem "div".toList (some "wherehestands".toList) [] [] NodeList.nil ]

/-- An accordion heading with no sibling details block. -/
def headingNoDetails : Node :=
  .elem "div".toList none ["accordion-heading".toList] []
    (NodeList.ofList
      [ .elem "h3".toList none [] []
          (NodeList.ofList
            [ .elem "span".toList none ["accordion-title".toList] []
                (NodeList.ofList [.text "Economy".toList]) ]) ])

/-- A wrapper holding only the heading (no `accordion-details`). -/
def wrapperNoDetails : Node :=
  .elem "div".toList none [] [] (NodeList.ofList [headingNoDetails])

/-- The stands container around `wrapperNoDetails`. -/
def whsNoDetails : Node :=
  .elem "div".toList (some "wherehestands".toList) [] []
    (NodeList.ofList [wrapperNoDetails])

/-- A document whose only accordion heading has no details block. -/
def docC10 : NodeList := NodeList.ofList [whsNoDetails]

/-- A complete entity stub. -/
def cardX : CardinalRecord :=
  { name := some "X".toList, profile_url := some "http://site/x".toList,
    attributes := none, analysis_results := none, static_fields := [] }

/-- An entity stub with no `profile_url` key. -/
def cardNoUrl : CardinalRecord :=
  { name := some "X".toList, profile_url := none,
    attributes := none, analysis_results := none, static_fields := [] }

/-- An already-present attribute on an entity being re-enriched. -/
def attrOld : Attr :=
  ⟨"Old Issue".toList, "old".toList, "3".toList, "Neutral".toList, none⟩

/-- An entity that already carries one attribute. -/
def cardWithAttr : CardinalRecord :=
  { name := some "X".toList, profile_url := some "http://site/x".toList,
    attributes := some [attrOld], analysis_results := none, static_fields := [] }

/-- A parseable reasoning response whose analysis object lacks the `rating`
key under `conservative`. -/
def badText : List Char :=
  "\x7b\"theological_stance\": \x7b\"conservative\": \x7b\x7d\x7d\x7d".toList

/-- A well-formed reasoning response with one rated dimension. -/
def goodText : List Char :=
  "\x7b\"theological_stance\": \x7b\"conservative\": \x7b\"rating\": 4, \"explanation\": \"x\"\x7d\x7d\x7d".toList

/-- Reasoning environment delivering `badText`. -/
def envBadAnalysis : ReasonEnv :=
  { fetchEnv := { httpRes := .ok NodeList.nil }, apiRes := .ok badText }

/-- Reasoning environment delivering `goodText`. -/
def envGoodC8 : ReasonEnv :=
  { fetchEnv := { httpRes := .ok NodeList.nil }, apiRes := .ok goodText }

/-- Reasoning environment whose profile fetch raises. -/
def envFetchErr : ReasonEnv :=
  { fetchEnv := { httpRes := .error "connection refused".toList },
    apiRes := .ok "\x7b\x7d".toList }

/-- Reasoning environment whose response is not JSON at all. -/
def envParseFail : ReasonEnv :=
  { fetchEnv := { httpRes := .ok NodeList.nil },
    apiRes := .ok "not json at all".toList }

/-- Browser environment whose navigation raises. -/
def envGotoErr : PageEnv :=
  { gotoRes := .error "net::ERR_TIMED_OUT".toList, whsCount := .ok 0,
    loadIters := [], contentRes := .ok NodeList.nil }

/-- Browser environment that runs to completion on `whsDoc4`. -/
def envPage4 : PageEnv :=
  { gotoRes := .ok (), whsCount := .ok 1, loadIters := [.visClickOk, .visFalse],
    contentRes := .ok whsDoc4 }

/-- Browser environment that finds the section but extracts nothing. -/
def envPageEmpty : PageEnv :=
  { gotoRes := .ok (), whsCount := .ok 1, loadIters := [],
    contentRes := .ok docWhsEmpty }

/-- The converter's output record for `goodText`. -/
def attrTheoCons4 : Attr :=
  ⟨"Theological Conservatism".toList,
   "Level of adherence to traditional theological positions".toList,
   "4".toList, "Moderately Progressive/Supports".toList, some (.jstr "x".toList)⟩

/-! ## Side-condition predicates used in theorem statements -/

/-- The list is empty or does not start with a digit (so a greedy `\d+` capture
ending right before it is maximal). -/
def headNotDigit : List Char → Bool
  | [] => true
  | c :: _ => !isDigitCh c

/-- The list is empty or starts with `')'` (so a greedy `[^\)]+` capture ending
right before it is maximal). -/
def headRParenOrNil : List Char → Bool
  | [] => true
  | c :: _ => c == ')'

/-- The invariant claimed for attribute records: the value parses as an
integer in 1-5, or value and label are both the `"Unknown"` sentinel. -/
def attrValueInvariant (a : Attr) : Prop :=
  (∃ n : Int, 1 ≤ n ∧ n ≤ 5 ∧ pyIntOfStr a.value = .ok n) ∨
    (a.value = unknownS ∧ a.label = unknownS)

/-! ## Helper lemmas -/

theorem isPrefixOf_self_append (l t : List Char) : l.isPrefixOf (l ++ t) = true := by
  induction l with
  | nil => simp [List.isPrefixOf]
  | cons c cs ih => simp [List.isPrefixOf, ih]

theorem eq_append_of_isPrefixOf {l s : List Char} (h : l.isPrefixOf s = true) :
    ∃ t, s = l ++ t := by
  induction l generalizing s with
  | nil => exact ⟨s, rfl⟩
  | cons c cs ih =>
    cases s with
    | nil => simp [List.isPrefixOf] at h
    | cons b bs =>
      simp only [List.isPrefixOf, Bool.and_eq_true, beq_iff_eq] at h
      obtain ⟨rfl, h2⟩ := h
      obtain ⟨t, rfl⟩ := ih h2
      exact ⟨t, rfl⟩

theorem dropWhile_append_of_all {p : Char → Bool} {xs : List Char} (ys : List Char)
    (h : ∀ c ∈ xs, p c = true) : (xs ++ ys).dropWhile p = ys.dropWhile p := by
  induction xs with
  | nil => rfl
  | cons c cs ih =>
    have hc : p c = true := h c (List.mem_cons_self c cs)
    simp only [List.cons_append, List.dropWhile_cons, hc, if_true]
    exact ih (fun d hd => h d (List.mem_cons_of_mem c hd))

theorem takeWhile_append_of_all {p : Char → Bool} {xs : List Char} (ys : List Char)
    (h : ∀ c ∈ xs, p c = true) : (xs ++ ys).takeWhile p = xs ++ ys.takeWhile p := by
  induction xs with
  | nil => rfl
  | cons c cs ih =>
    have hc : p c = true := h c (List.mem_cons_self c cs)
    simp only [List.cons_append, List.takeWhile_cons, hc, if_true]
    exact congrArg (c :: ·) (ih (fun d hd => h d (List.mem_cons_of_mem c hd)))

theorem takeWhile_eq_self_of_all {p : Char → Bool} {xs : List Char}
    (h : ∀ c ∈ xs, p c = true) : xs.takeWhile p = xs := by
  have := takeWhile_append_of_all (p := p) [] h
  simpa using this

theorem dropWhile_eq_nil_of_all {p : Char → Bool} {xs : List Char}
    (h : ∀ c ∈ xs, p c = true) : xs.dropWhile p = [] := by
  have := dropWhile_append_of_all (p := p) [] h
  simpa using this

theorem takeWhile_cons_of_neg {p : Char → Bool} {c : Char} (l : List Char)
    (hc : p c = false) : (c :: l).takeWhile p = [] := by
  simp [List.takeWhile_cons, hc]

theorem dropWhile_cons_of_neg {p : Char → Bool} {c : Char} (l : List Char)
    (hc : p c = false) : (c :: l).dropWhile p = c :: l := by
  simp [List.dropWhile_cons, hc]

theorem digit_not_space {c : Char} (h : isDigitCh c = true) : isSpaceCh c = false := by
  cases hs : isSpaceCh c with
  | false => rfl
  | true =>
    exfalso
    simp only [isSpaceCh, Bool.or_eq_true, beq_iff_eq] at hs
    obtain ((((rfl | rfl) | rfl) | rfl) | rfl) | rfl := hs <;> exact absurd h (by decide)

theorem space_not_rparen {c : Char} (h : isSpaceCh c = true) : (c != ')') = true := by
  simp only [isSpaceCh, Bool.or_eq_true, beq_iff_eq] at h
  obtain ((((rfl | rfl) | rfl) | rfl) | rfl) | rfl := h <;> decide

theorem rparen_not_space : isSpaceCh ')' = false := by decide

theorem getLastD_mem {l : List Char} (d : Char) (h : l ≠ []) : l.getLastD d ∈ l := by
  induction l generalizing d with
  | nil => exact absurd rfl h
  | cons c cs ih =>
    cases cs with
    | nil => simp [List.getLastD]
    | cons b bs =>
      have hm : (b :: bs).getLastD c ∈ b :: bs := ih c (by simp)
      simp only [List.getLastD, List.mem_cons]
      exact Or.inr (by simpa [List.mem_cons] using hm)

theorem dropLast_append_getLastD {l : List Char} (d : Char) (h : l ≠ []) :
    l.dropLast ++ [l.getLastD d] = l := by
  induction l generalizing d with
  | nil => exact absurd rfl h
  | cons c cs ih =>
    cases cs with
    | nil => simp [List.getLastD]
    | cons b bs =>
      have := ih c (by simp)
      simpa [List.getLastD, List.dropLast] using this

theorem mem_dropLast {l : List Char} {c : Char} (h : c ∈ l.dropLast) : c ∈ l := by
  induction l with
  | nil => simp at h
  | cons a as ih =>
    cases as with
    | nil => simp at h
    | cons b bs =>
      simp only [List.dropLast, List.mem_cons] at h
      rcases h with rfl | h
      · exact List.mem_cons_self _ _
      · exact List.mem_cons_of_mem _ (ih (by simpa [List.dropLast] using h))

theorem dropWhile_idempotent (p : Char → Bool) (l : List Char) :
    (l.dropWhile p).dropWhile p = l.dropWhile p := by
  induction l with
  | nil => rfl
  | cons c cs ih =>
    cases hc : p c with
    | true => simpa [List.dropWhile_cons, hc] using ih
    | false => simp [List.dropWhile_cons, hc]

theorem pyStrip_dropWhile (l : List Char) :
    pyStrip (l.dropWhile isSpaceCh) = pyStrip l := by
  simp [pyStrip, dropWhile_idempotent]

theorem pyStrip_eq_nil_of_all_space {l : List Char}
    (h : ∀ c ∈ l, isSpaceCh c = true) : pyStrip l = [] := by
  simp [pyStrip, dropWhile_eq_nil_of_all h]

theorem searchFrom_of_hit {f : List Char → Option (List Char)} {s r : List Char}
    (h : f s = some r) : searchFrom f s = some r := by
  cases s <;> simp [searchFrom, h]

theorem searchFrom_append {f : List Char → Option (List Char)} (pre s : List Char)
    (h : ∀ i, i < pre.length → f ((pre ++ s).drop i) = none) :
    searchFrom f (pre ++ s) = searchFrom f s := by
  induction pre with
  | nil => rfl
  | cons c cs ih =>
    have h0 : f (c :: (cs ++ s)) = none := by simpa using h 0 (by simp)
    rw [List.cons_append, searchFrom.eq_def]
    simp only [h0]
    exact ih (fun i hi => by simpa using h (i + 1) (by simpa using Nat.succ_lt_succ hi))

theorem searchFrom_some {f : List Char → Option (List Char)} {s r : List Char}
    (h : searchFrom f s = some r) : ∃ i, f (s.drop i) = some r := by
  induction s with
  | nil => exact ⟨0, h⟩
  | cons c cs ih =>
    cases hfc : f (c :: cs) with
    | some r' =>
      refine ⟨0, ?_⟩
      simpa [searchFrom, hfc] using h
    | none =>
      have h' : searchFrom f cs = some r := by simpa [searchFrom, hfc] using h
      obtain ⟨i, hi⟩ := ih h'
      exact ⟨i + 1, by simpa using hi⟩

theorem tryValueAt_none_of_no_lit {s : List Char}
    (h : valueLit.isPrefixOf s = false) : tryValueAt s = none := by
  simp [tryValueAt, h]

theorem tryLabelAt_none_of_no_lit {s : List Char}
    (h : labelLit.isPrefixOf s = false) : tryLabelAt s = none := by
  simp [tryLabelAt, h]

theorem tryValueAt_match {ws ds post : List Char}
    (hws : ∀ c ∈ ws, isSpaceCh c = true) (hne : ds ≠ [])
    (hds : ∀ c ∈ ds, isDigitCh c = true) (hpost : headNotDigit post = true) :
    tryValueAt (valueLit ++ (ws ++ (ds ++ post))) = some ds := by
  have hpre := isPrefixOf_self_append valueLit (ws ++ (ds ++ post))
  have hdropLit : (valueLit ++ (ws ++ (ds ++ post))).drop valueLit.length
      = ws ++ (ds ++ post) := by simp
  have hdropWs : (ws ++ (ds ++ post)).dropWhile isSpaceCh = ds ++ post := by
    rw [dropWhile_append_of_all _ hws]
    cases ds with
    | nil => exact absurd rfl hne
    | cons d ds' =>
      exact dropWhile_cons_of_neg _ (digit_not_space (hds d (List.mem_cons_self d ds')))
  have htake : (ds ++ post).takeWhile isDigitCh = ds := by
    rw [takeWhile_append_of_all _ hds]
    cases post with
    | nil => simp
    | cons q qs =>
      have hq : isDigitCh q = false := by
        simpa [headNotDigit] using hpost
      simp [takeWhile_cons_of_neg _ hq]
  have hdsne : ds.isEmpty = false := by
    cases ds with
    | nil => exact absurd rfl hne
    | cons d ds' => rfl
  simp [tryValueAt, hpre, hdropLit, hdropWs, htake, hdsne]

theorem dropWhile_append_of_ne_nil {p : Char → Bool} {xs : List Char} (ys : List Char)
    (h : xs.dropWhile p ≠ []) : (xs ++ ys).dropWhile p = xs.dropWhile p ++ ys := by
  induction xs with
  | nil => exact absurd rfl h
  | cons c cs ih =>
    cases hc : p c with
    | true =>
      have h' : cs.dropWhile p ≠ [] := by
        simpa [List.dropWhile_cons, hc] using h
      simp [List.dropWhile_cons, hc, ih h']
    | false => simp [List.dropWhile_cons, hc]

theorem takeWhile_of_headRParenOrNil {post : List Char}
    (hpost : headRParenOrNil post = true) :
    post.takeWhile (fun c => c != ')') = [] := by
  cases post with
  | nil => rfl
  | cons q qs =>
    have hq : q = ')' := by simpa [headRParenOrNil] using hpost
    subst hq
    exact takeWhile_cons_of_neg _ (by decide)

theorem spaceTakeWhile_of_headRParenOrNil {post : List Char}
    (hpost : headRParenOrNil post = true) :
    post.takeWhile isSpaceCh = [] := by
  cases post with
  | nil => rfl
  | cons q qs =>
    have hq : q = ')' := by simpa [headRParenOrNil] using hpost
    subst hq
    exact takeWhile_cons_of_neg _ rparen_not_space

theorem spaceDropWhile_of_headRParenOrNil {post : List Char}
    (hpost : headRParenOrNil post = true) :
    post.dropWhile isSpaceCh = post := by
  cases post with
  | nil => rfl
  | cons q qs =>
    have hq : q = ')' := by simpa [headRParenOrNil] using hpost
    subst hq
    exact dropWhile_cons_of_neg _ rparen_not_space

theorem tryLabelAt_match {ws L post : List Char}
    (hws : ∀ c ∈ ws, isSpaceCh c = true) (hne : L ≠ [])
    (hL : ∀ c ∈ L, (c != ')') = true) (hpost : headRParenOrNil post = true) :
    ∃ g, tryLabelAt (labelLit ++ (ws ++ (L ++ post))) = some g ∧
      pyStrip g = pyStrip L := by
  have hpre := isPrefixOf_self_append labelLit (ws ++ (L ++ post))
  have hdropLit : (labelLit ++ (ws ++ (L ++ post))).drop labelLit.length
      = ws ++ (L ++ post) := by simp
  by_cases hcase : L.dropWhile isSpaceCh = []
  · -- the capturable part is all whitespace: the regex backtracks one character
    have hLsp : ∀ c ∈ L, isSpaceCh c = true := List.dropWhile_eq_nil_iff.mp hcase
    have hdropWs : (ws ++ (L ++ post)).dropWhile isSpaceCh = post := by
      rw [dropWhile_append_of_all _ hws, dropWhile_append_of_all _ hLsp]
      exact spaceDropWhile_of_headRParenOrNil hpost
    have hgrab : post.takeWhile (fun c => c != ')') = [] :=
      takeWhile_of_headRParenOrNil hpost
    have htakeWs : (ws ++ (L ++ post)).takeWhile isSpaceCh = ws ++ L := by
      rw [takeWhile_append_of_all _ hws, takeWhile_append_of_all _ hLsp,
        spaceTakeWhile_of_headRParenOrNil hpost, List.append_nil]
    have hwsLne : ws ++ L ≠ [] := by
      intro hctr
      exact hne (by simpa using (List.append_eq_nil.mp hctr).2
        )
    have hmem : (ws ++ L).getLastD ' ' ∈ ws ++ L := getLastD_mem ' ' hwsLne
    have hsp : isSpaceCh ((ws ++ L).getLastD ' ') = true := by
      rcases List.mem_append.mp hmem with hm | hm
      · exact hws _ hm
      · exact hLsp _ hm
    refine ⟨[(ws ++ L).getLastD ' '], ?_, ?_⟩
    · have hwsLempty : (ws ++ L).isEmpty = false := by
        cases hx : ws ++ L with
        | nil => exact absurd hx hwsLne
        | cons a as => rfl
      simp [tryLabelAt, hpre, hdropLit, hdropWs, hgrab, htakeWs, hwsLempty]
    · rw [pyStrip_eq_nil_of_all_space (l := [(ws ++ L).getLastD ' ']) ?_,
        pyStrip_eq_nil_of_all_space hLsp]
      intro c hc
      rcases List.mem_singleton.mp hc with rfl
      exact hsp
  · -- the capture proper: maximal whitespace, then the non-`)` run
    have hdropWs : (ws ++ (L ++ post)).dropWhile isSpaceCh
        = L.dropWhile isSpaceCh ++ post := by
      rw [dropWhile_append_of_all _ hws]
      exact dropWhile_append_of_ne_nil post hcase
    have hL1 : ∀ c ∈ L.dropWhile isSpaceCh, (c != ')') = true :=
      fun c hc => hL c (List.Sublist.mem hc (List.dropWhile_sublist isSpaceCh))
    have hgrab : (L.dropWhile isSpaceCh ++ post).takeWhile (fun c => c != ')')
        = L.dropWhile isSpaceCh := by
      rw [takeWhile_append_of_all _ hL1, takeWhile_of_headRParenOrNil hpost,
        List.append_nil]
    have hgrabne : (L.dropWhile isSpaceCh).isEmpty = false := by
      cases hx : L.dropWhile isSpaceCh with
      | nil => exact absurd hx hcase
      | cons a as => rfl
    refine ⟨L.dropWhile isSpaceCh, ?_, pyStrip_dropWhile L⟩
    simp [tryLabelAt, hpre, hdropLit, hdropWs, hgrab, hgrabne]

theorem mem_takeWhile_pred {p : Char → Bool} {l : List Char} {c : Char}
    (h : c ∈ l.takeWhile p) : p c = true := by
  induction l with
  | nil => simp [List.takeWhile] at h
  | cons a as ih =>
    cases ha : p a with
    | false =>
      rw [takeWhile_cons_of_neg _ ha] at h
      simp at h
    | true =>
      rw [List.takeWhile_cons, if_pos ha] at h
      rcases List.mem_cons.mp h with rfl | h2
      · exact ha
      · exact ih h2

theorem tryValueAt_some {u ds : List Char} (h : tryValueAt u = some ds) :
    ∃ ws post, u = valueLit ++ (ws ++ (ds ++ post)) ∧
      (∀ c ∈ ws, isSpaceCh c = true) ∧ ds ≠ [] ∧ (∀ c ∈ ds, isDigitCh c = true) := by
  cases hp : valueLit.isPrefixOf u with
  | false => simp [tryValueAt, hp] at h
  | true =>
    obtain ⟨t, rfl⟩ := eq_append_of_isPrefixOf hp
    have hdrop : (valueLit ++ t).drop valueLit.length = t := by simp
    have h' : (if ((t.dropWhile isSpaceCh).takeWhile isDigitCh).isEmpty then none
        else some ((t.dropWhile isSpaceCh).takeWhile isDigitCh)) = some ds := by
      simpa [tryValueAt, hp, hdrop] using h
    cases he : ((t.dropWhile isSpaceCh).takeWhile isDigitCh).isEmpty with
    | true => rw [he] at h'; simp at h'
    | false =>
      rw [he] at h'
      have hds : ds = (t.dropWhile isSpaceCh).takeWhile isDigitCh := by
        simpa using h'.symm
      subst hds
      refine ⟨t.takeWhile isSpaceCh, (t.dropWhile isSpaceCh).dropWhile isDigitCh,
        ?_, ?_, ?_, ?_⟩
      · rw [List.takeWhile_append_dropWhile isDigitCh (t.dropWhile isSpaceCh),
          List.takeWhile_append_dropWhile isSpaceCh t]
      · exact fun c hc => mem_takeWhile_pred hc
      · intro hctr
        rw [hctr] at he
        simp at he
      · exact fun c hc => mem_takeWhile_pred hc

theorem tryLabelAt_some {u g : List Char} (h : tryLabelAt u = some g) :
    ∃ ws L post, u = labelLit ++ (ws ++ (L ++ post)) ∧
      (∀ c ∈ ws, isSpaceCh c = true) ∧ L ≠ [] ∧ (∀ c ∈ L, (c != ')') = true) := by
  cases hp : labelLit.isPrefixOf u with
  | false => simp [tryLabelAt, hp] at h
  | true =>
    obtain ⟨t, rfl⟩ := eq_append_of_isPrefixOf hp
    have hdrop : (labelLit ++ t).drop labelLit.length = t := by simp
    have h' : (if !((t.dropWhile isSpaceCh).takeWhile (fun c => c != ')')).isEmpty then
        some ((t.dropWhile isSpaceCh).takeWhile (fun c => c != ')'))
        else if !(t.takeWhile isSpaceCh).isEmpty then
          some [(t.takeWhile isSpaceCh).getLastD ' ']
        else none) = some g := by
      simpa [tryLabelAt, hp, hdrop] using h
    cases hge : ((t.dropWhile isSpaceCh).takeWhile (fun c => c != ')')).isEmpty with
    | false =>
      rw [hge] at h'
      have hg : g = (t.dropWhile isSpaceCh).takeWhile (fun c => c != ')') := by
        simpa using h'.symm
      subst hg
      refine ⟨t.takeWhile isSpaceCh,
        (t.dropWhile isSpaceCh).takeWhile (fun c => c != ')'),
        (t.dropWhile isSpaceCh).dropWhile (fun c => c != ')'), ?_, ?_, ?_, ?_⟩
      · rw [List.takeWhile_append_dropWhile (fun c => c != ')') (t.dropWhile isSpaceCh),
          List.takeWhile_append_dropWhile isSpaceCh t]
      · exact fun c hc => mem_takeWhile_pred hc
      · intro hctr
        rw [hctr] at hge
        simp at hge
      · exact fun c hc => mem_takeWhile_pred (p := fun c => c != ')') hc
    | true =>
      rw [hge] at h'
      cases hwe : (t.takeWhile isSpaceCh).isEmpty with
      | true => rw [hwe] at h'; simp at h'
      | false =>
        rw [hwe] at h'
        have hg : g = [(t.takeWhile isSpaceCh).getLastD ' '] := by
          simpa using h'.symm
        subst hg
        have hwsne : t.takeWhile isSpaceCh ≠ [] := by
          intro hctr
          rw [hctr] at hwe
          simp at hwe
        have hlast_sp : isSpaceCh ((t.takeWhile isSpaceCh).getLastD ' ') = true :=
          mem_takeWhile_pred (getLastD_mem ' ' hwsne)
        refine ⟨(t.takeWhile isSpaceCh).dropLast,
          [(t.takeWhile isSpaceCh).getLastD ' '], t.dropWhile isSpaceCh,
          ?_, ?_, by simp, ?_⟩
        · have hassoc : (t.takeWhile isSpaceCh).dropLast
              ++ ([(t.takeWhile isSpaceCh).getLastD ' '] ++ t.dropWhile isSpaceCh)
              = t := by
            rw [← List.append_assoc, dropLast_append_getLastD ' ' hwsne,
              List.takeWhile_append_dropWhile isSpaceCh t]
          rw [hassoc]
        · exact fun c hc => mem_takeWhile_pred (mem_dropLast hc)
        · intro c hc
          rcases List.mem_singleton.mp hc with rfl
          exact space_not_rparen hlast_sp

theorem searchValue_decomp {s ds : List Char} (h : searchValue s = some ds) :
    ∃ pre ws post, s = pre ++ (valueLit ++ (ws ++ (ds ++ post))) ∧
      (∀ c ∈ ws, isSpaceCh c = true) ∧ ds ≠ [] ∧ (∀ c ∈ ds, isDigitCh c = true) := by
  obtain ⟨i, hi⟩ := searchFrom_some h
  obtain ⟨ws, post, hu, hws, hne, hds⟩ := tryValueAt_some hi
  refine ⟨s.take i, ws, post, ?_, hws, hne, hds⟩
  rw [← hu, List.take_append_drop i s]

theorem searchLabel_decomp {s g : List Char} (h : searchLabel s = some g) :
    ∃ pre ws L post, s = pre ++ (labelLit ++ (ws ++ (L ++ post))) ∧
      (∀ c ∈ ws, isSpaceCh c = true) ∧ L ≠ [] ∧ (∀ c ∈ L, (c != ')') = true) := by
  obtain ⟨i, hi⟩ := searchFrom_some h
  obtain ⟨ws, L, post, hu, hws, hne, hL⟩ := tryLabelAt_some hi
  refine ⟨s.take i, ws, L, post, ?_, hws, hne, hL⟩
  rw [← hu, List.take_append_drop i s]

theorem fragValue_eq_of_decomp {t pre ws ds post : List Char}
    (hs : pyStrip t = pre ++ (valueLit ++ (ws ++ (ds ++ post))))
    (hpre : ∀ i, i < pre.length → valueLit.isPrefixOf ((pyStrip t).drop i) = false)
    (hws : ws.all isSpaceCh = true) (hne : ds ≠ []) (hds : ds.all isDigitCh = true)
    (hpost : headNotDigit post = true) :
    fragValue t = ds := by
  have hws' : ∀ c ∈ ws, isSpaceCh c = true := by
    intro c hc
    exact List.all_eq_true.mp hws c hc
  have hds' : ∀ c ∈ ds, isDigitCh c = true := by
    intro c hc
    exact List.all_eq_true.mp hds c hc
  have hpre' : ∀ i, i < pre.length →
      tryValueAt ((pre ++ (valueLit ++ (ws ++ (ds ++ post)))).drop i) = none := by
    intro i hi
    refine tryValueAt_none_of_no_lit ?_
    have := hpre i hi
    rwa [hs] at this
  have hsearch : searchValue (pyStrip t) = some ds := by
    rw [hs, searchValue, searchFrom_append pre _ hpre']
    exact searchFrom_of_hit (tryValueAt_match hws' hne hds' hpost)
  rw [fragValue, hsearch]

theorem fragLabel_eq_of_decomp {t pre ws L post : List Char}
    (hs : pyStrip t = pre ++ (labelLit ++ (ws ++ (L ++ post))))
    (hpre : ∀ i, i < pre.length → labelLit.isPrefixOf ((pyStrip t).drop i) = false)
    (hws : ws.all isSpaceCh = true) (hne : L ≠ [])
    (hL : L.all (fun c => c != ')') = true) (hpost : headRParenOrNil post = true) :
    fragLabel t = pyStrip L := by
  have hws' : ∀ c ∈ ws, isSpaceCh c = true := by
    intro c hc
    exact List.all_eq_true.mp hws c hc
  have hL' : ∀ c ∈ L, (c != ')') = true := by
    intro c hc
    exact List.all_eq_true.mp hL c hc
  have hpre' : ∀ i, i < pre.length →
      tryLabelAt ((pre ++ (labelLit ++ (ws ++ (L ++ post)))).drop i) = none := by
    intro i hi
    refine tryLabelAt_none_of_no_lit ?_
    have := hpre i hi
    rwa [hs] at this
  obtain ⟨g, hg, hgstrip⟩ := tryLabelAt_match hws' hne hL' hpost
  have hsearch : searchLabel (pyStrip t) = some g := by
    rw [hs, searchLabel, searchFrom_append pre _ hpre']
    exact searchFrom_of_hit hg
  rw [fragLabel, hsearch]
  exact hgstrip

theorem fragValue_unknown_of_no_decomp {t : List Char}
    (h : ¬ ∃ pre ws ds post, pyStrip t = pre ++ (valueLit ++ (ws ++ (ds ++ post))) ∧
      (∀ c ∈ ws, isSpaceCh c = true) ∧ ds ≠ [] ∧ (∀ c ∈ ds, isDigitCh c = true)) :
    fragValue t = unknownS := by
  cases hsv : searchValue (pyStrip t) with
  | none => rw [fragValue, hsv]
  | some ds =>
    obtain ⟨pre, ws, post, hdec, hws, hne, hds⟩ := searchValue_decomp hsv
    exact absurd ⟨pre, ws, ds, post, hdec, hws, hne, hds⟩ h

theorem fragLabel_unknown_of_no_decomp {t : List Char}
    (h : ¬ ∃ pre ws L post, pyStrip t = pre ++ (labelLit ++ (ws ++ (L ++ post))) ∧
      (∀ c ∈ ws, isSpaceCh c = true) ∧ L ≠ [] ∧ (∀ c ∈ L, (c != ')') = true)) :
    fragLabel t = unknownS := by
  cases hsl : searchLabel (pyStrip t) with
  | none => rw [fragLabel, hsl]
  | some g =>
    obtain ⟨pre, ws, L, post, hdec, hws, hne, hL⟩ := searchLabel_decomp hsl
    exact absurd ⟨pre, ws, L, post, hdec, hws, hne, hL⟩ h

theorem fragValue_shape (f : List Char) :
    (fragValue f ≠ [] ∧ ∀ c ∈ fragValue f, isDigitCh c = true) ∨
      fragValue f = unknownS := by
  cases hsv : searchValue (pyStrip f) with
  | none =>
    right
    rw [fragValue, hsv]
  | some ds =>
    left
    obtain ⟨pre, ws, post, _, _, hne, hds⟩ := searchValue_decomp hsv
    have hval : fragValue f = ds := by rw [fragValue, hsv]
    rw [hval]
    exact ⟨hne, hds⟩

theorem contentRecord_value_shape (title : List Char) (c : Node) :
    ((contentRecord title c).value ≠ [] ∧
      ∀ d ∈ (contentRecord title c).value, isDigitCh d = true) ∨
      (contentRecord title c).value = unknownS := by
  rw [contentRecord]
  cases hfind : (descendantsOf c).find? isHiddenAB with
  | none => right; rfl
  | some hd => exact fragValue_shape (nodeText hd)

theorem mem_processItem {parent item : Node} {a : Attr}
    (h : a ∈ processItem parent item) :
    ∃ c : Node, a = contentRecord (issueTitleOf item) c := by
  rw [processItem] at h
  cases hfind : (descendantsOf parent).find? isDetailsDiv with
  | none => rw [hfind] at h; simp at h
  | some details =>
    rw [hfind] at h
    obtain ⟨c, _, hrec⟩ := List.mem_map.mp h
    exact ⟨c, hrec.symm⟩

theorem mem_extract_record {soup : NodeList} {a : Attr}
    (h : a ∈ extract_issues_from_html soup) :
    ∃ title c, a = contentRecord title c := by
  rw [extract_issues_from_html] at h
  cases hfind : (listAll soup).find? isWhereHeStands with
  | none => rw [hfind] at h; simp at h
  | some whs =>
    rw [hfind] at h
    obtain ⟨l, hl, hal⟩ := List.mem_flatten.mp h
    obtain ⟨q, _, hq⟩ := List.mem_map.mp hl
    rw [← hq] at hal
    obtain ⟨c, hc⟩ := mem_processItem hal
    exact ⟨issueTitleOf q.2, c, hc⟩

theorem processItem_eq_nil_of_no_details {parent item : Node}
    (h : ∀ d ∈ descendantsOf parent, isDetailsDiv d = false) :
    processItem parent item = [] := by
  rw [processItem, List.find?_eq_none.mpr (fun d hd => by simp [h d hd])]

theorem extract_eq_nil_of_no_whs {soup : NodeList}
    (h : ∀ n ∈ listAll soup, isWhereHeStands n = false) :
    extract_issues_from_html soup = [] := by
  rw [extract_issues_from_html,
    List.find?_eq_none.mpr (fun n hn => by simp [h n hn])]

theorem processCardinal_skip_no_url {env : ReasonEnv} {c : CardinalRecord}
    (h : c.profile_url = none) : processCardinal env c = .ok c := by
  rw [processCardinal, h]

theorem processCardinal_skip_fetch_err {env : ReasonEnv} {c : CardinalRecord}
    {m : List Char} (h : env.fetchEnv.httpRes = .error m) :
    processCardinal env c = .ok c := by
  rw [processCardinal]
  cases hurl : c.profile_url with
  | none => rfl
  | some url =>
    have hfetch : extract_cardinal_data env.fetchEnv = none := by
      rw [extract_cardinal_data, h]
    rw [hfetch]

theorem processCardinal_skip_error_analysis {env : ReasonEnv} {c : CardinalRecord}
    (h : pyIn errK (analyze_cardinal_profile env) = .ok true) :
    processCardinal env c = .ok c := by
  rw [processCardinal]
  cases hurl : c.profile_url with
  | none => rfl
  | some url =>
    cases hfetch : extract_cardinal_data env.fetchEnv with
    | none => rfl
    | some pd => simp [h]

theorem process_cardinals_cons_of_skip {env : ReasonEnv} {c : CardinalRecord}
    (rest : List (ReasonEnv × CardinalRecord)) (h : processCardinal env c = .ok c) :
    process_cardinals ((env, c) :: rest) = (process_cardinals rest).map (c :: ·) := by
  rw [process_cardinals, h]

theorem processCardinal_merge {env : ReasonEnv} {c : CardinalRecord}
    {url : List Char} {soup : NodeList} {new_attributes : List Attr}
    (hurl : c.profile_url = some url) (hsoup : env.fetchEnv.httpRes = .ok soup)
    (herr : pyIn errK (analyze_cardinal_profile env) = .ok false)
    (hconv : convert_to_attributes (analyze_cardinal_profile env) = .ok new_attributes) :
    processCardinal env c = .ok { c with
      attributes := some (c.attributes.getD [] ++ new_attributes),
      analysis_results := some (analyze_cardinal_profile env) } := by
  have hfetch : extract_cardinal_data env.fetchEnv =
      some { summary :=
               match (listAll soup).find? isSummaryBlock with
               | some d => nodeTextStrip d
               | none => "Summary not found".toList,
             profile :=
               match (listAll soup).find? isEntryContent with
               | some d => nodeTextStrip d
               | none => "Profile not found".toList } := by
    rw [extract_cardinal_data, hsoup]
  rw [processCardinal, hurl, hfetch]
  simp [herr, hconv]

theorem check_unchanged_of_guarded_error {env : PageEnv} {p : CardinalRecord}
    {url nm : List Char} (hurl : p.profile_url = some url) (hnm : p.name = some nm)
    (herr : (∃ m, env.gotoRes = .error m) ∨ (∃ m, env.whsCount = .error m) ∨
      (∃ m, env.contentRes = .error m)) :
    check_and_extract_where_he_stands env p = .ok p := by
  rw [check_and_extract_where_he_stands, hurl, hnm]
  cases hg : env.gotoRes with
  | error m => rfl
  | ok u =>
    cases hw : env.whsCount with
    | error m => rfl
    | ok cnt =>
      cases hcnt : cnt == 0 with
      | true => simp [hcnt]
      | false =>
        cases hc : env.contentRes with
        | error m => simp [hcnt]
        | ok content =>
          exfalso
          rcases herr with ⟨m, hm⟩ | ⟨m, hm⟩ | ⟨m, hm⟩
          · rw [hm] at hg; exact Except.noConfusion hg
          · rw [hm] at hw; exact Except.noConfusion hw
          · rw [hm] at hc; exact Except.noConfusion hc

theorem check_full_run {env : PageEnv} {p : CardinalRecord} {url nm : List Char}
    {cnt : Nat} {content : NodeList}
    (hurl : p.profile_url = some url) (hnm : p.name = some nm)
    (hg : env.gotoRes = .ok ()) (hw : env.whsCount = .ok cnt) (hcnt : cnt ≠ 0)
    (hc : env.contentRes = .ok content) :
    check_and_extract_where_he_stands env p =
      (if (extract_issues_from_html content).isEmpty then .ok p
       else .ok { p with attributes := some (extract_issues_from_html content) }) := by
  have hcnt' : (cnt == 0) = false := by
    cases cnt with
    | zero => exact absurd rfl hcnt
    | succ k => rfl
  rw [check_and_extract_where_he_stands, hurl, hnm, hg, hw, hc]
  simp [hcnt']

theorem check_keyError_no_url {env : PageEnv} {p : CardinalRecord}
    (h : p.profile_url = none) :
    check_and_extract_where_he_stands env p = .error .keyError := by
  rw [check_and_extract_where_he_stands, h]

theorem mkRatingAttr_ok {t s : List Char} {obj : JVal} {a : Attr}
    (h : mkRatingAttr t s obj = .ok a) :
    ∃ rv expl, a = ⟨t, s, pyStr rv, get_label_for_rating rv, some expl⟩ := by
  rw [mkRatingAttr] at h
  cases h1 : pySubscript obj "rating".toList with
  | error e =>
    rw [h1] at h
    simp [Bind.bind, Except.bind] at h
  | ok rating =>
    rw [h1] at h
    cases h2 : pySubscript obj "explanation".toList with
    | error e =>
      rw [h2] at h
      simp [Bind.bind, Except.bind] at h
    | ok expl =>
      rw [h2] at h
      simp only [Bind.bind, Except.bind, pure, Except.pure, Except.ok.injEq] at h
      exact ⟨rating, expl, h.symm⟩

theorem ratingItem_ok_mem {container : JVal} {key title sub : List Char}
    {l : List Attr} {a : Attr} (h : ratingItem container key title sub = .ok l)
    (ha : a ∈ l) :
    ∃ rv, a.value = pyStr rv ∧ a.label = get_label_for_rating rv := by
  rw [ratingItem] at h
  split at h
  · exact Except.noConfusion h
  · obtain rfl : l = [] := (Except.ok.injEq _ _).mp h.symm
    simp at ha
  · split at h
    · exact Except.noConfusion h
    · split at h
      · exact Except.noConfusion h
      · rename_i obj hobj a' ha'
        obtain rfl : l = [a'] := (Except.ok.injEq _ _).mp h.symm
        rcases List.mem_singleton.mp ha with rfl
        obtain ⟨rv, expl, rfl⟩ := mkRatingAttr_ok ha'
        exact ⟨rv, rfl, rfl⟩

theorem sectionAttrs_ok_mem {analysis : JVal}
    {secKey k1 t1 s1 k2 t2 s2 : List Char} {l : List Attr} {a : Attr}
    (h : sectionAttrs analysis secKey k1 t1 s1 k2 t2 s2 = .ok l) (ha : a ∈ l) :
    ∃ rv, a.value = pyStr rv ∧ a.label = get_label_for_rating rv := by
  rw [sectionAttrs] at h
  split at h
  · exact Except.noConfusion h
  · obtain rfl : l = [] := (Except.ok.injEq _ _).mp h.symm
    simp at ha
  · split at h
    · exact Except.noConfusion h
    · split at h
      · exact Except.noConfusion h
      · rename_i l1 h1
        split at h
        · exact Except.noConfusion h
        · rename_i l2 h2
          obtain rfl : l = l1 ++ l2 := (Except.ok.injEq _ _).mp h.symm
          rcases List.mem_append.mp ha with hb1 | hb2
          · exact ratingItem_ok_mem h1 hb1
          · exact ratingItem_ok_mem h2 hb2

theorem convert_ok_mem {analysis : JVal} {attrs : List Attr} {a : Attr}
    (h : convert_to_attributes analysis = .ok attrs) (ha : a ∈ attrs) :
    ∃ rv, a.value = pyStr rv ∧ a.label = get_label_for_rating rv := by
  rw [convert_to_attributes] at h
  split at h
  · exact Except.noConfusion h
  · rename_i theoAttrs hTheo
    split at h
    · exact Except.noConfusion h
    · rename_i issueAttrs hIss
      obtain rfl : attrs = theoAttrs ++ issueAttrs :=
        (Except.ok.injEq _ _).mp h.symm
      rcases List.mem_append.mp ha with h1 | h2
      · exact sectionAttrs_ok_mem hTheo h1
      · exact sectionAttrs_ok_mem hIss h2

/-! ## Claim theorems -/

/-- C3: for every HTML document in which the element with id `wherehestands`
is absent, `extract_issues_from_html` returns the empty sequence.  That it
never raises holds by construction: the extractor is a total function into
`List Attr`, not an `Except`. -/
theorem C3_missing_section_empty (soup : NodeList)
    (h : ∀ n ∈ listAll soup, isWhereHeStands n = false) :
    extract_issues_from_html soup = [] :=
  extract_eq_nil_of_no_whs h

/-- Witness for C3 on a concrete document with no stands container. -/
theorem C3_missing_section_empty_witness :
    extract_issues_from_html docNoWhs = [] :=
  C3_missing_section_empty docNoWhs (by decide)

/-- C6: the rating-to-label lookup is a pure total function (total by its
type): each integer 1-5 maps to its fixed label, and any value that either
fails `int(...)` conversion or converts outside 1-5 maps to `"Unknown"`
without raising. -/
theorem C6_label_lookup_total :
    (get_label_for_rating (.jnum 1) = "Strongly Conservative/Against".toList ∧
     get_label_for_rating (.jnum 2) = "Moderately Conservative/Against".toList ∧
     get_label_for_rating (.jnum 3) = "Neutral/Balanced".toList ∧
     get_label_for_rating (.jnum 4) = "Moderately Progressive/Supports".toList ∧
     get_label_for_rating (.jnum 5) = "Strongly Progressive/Supports".toList) ∧
    (∀ v : JVal, (∀ r : Int, pyInt v = .ok r → r < 1 ∨ 5 < r) →
      get_label_for_rating v = unknownS) := by
  refine ⟨⟨rfl, rfl, rfl, rfl, rfl⟩, ?_⟩
  intro v hv
  rw [get_label_for_rating]
  cases hp : pyInt v with
  | error e => rfl
  | ok n =>
    have hb := hv n hp
    have h1 : (n == 1) = false := by
      simp only [beq_eq_false_iff_ne]
      omega
    have h2 : (n == 2) = false := by
      simp only [beq_eq_false_iff_ne]
      omega
    have h3 : (n == 3) = false := by
      simp only [beq_eq_false_iff_ne]
      omega
    have h4 : (n == 4) = false := by
      simp only [beq_eq_false_iff_ne]
      omega
    have h5 : (n == 5) = false := by
      simp only [beq_eq_false_iff_ne]
      omega
    simp [h1, h2, h3, h4, h5]

/-- Witness for C6: a non-numeric string and an out-of-range integer both
give `"Unknown"`. -/
theorem C6_label_lookup_total_witness :
    get_label_for_rating (.jstr "abc".toList) = unknownS ∧
    get_label_for_rating (.jnum 7) = unknownS := by
  constructor
  · exact C6_label_lookup_total.2 (.jstr "abc".toList) (fun r hr => nomatch hr)
  · refine C6_label_lookup_total.2 (.jnum 7) (fun r hr => ?_)
    have : (7 : Int) = r := by injection hr
    omega

/-- C9: in the first (page-scraping) pass, a run that reaches extraction
assigns the extracted list to the `attributes` field when it is non-empty,
replacing any previous value, and does not write the key at all when it is
empty — the record is returned exactly as passed in, so an entity without an
`attributes` key still has none. -/
theorem C9_first_pass_assignment (env : PageEnv) (p : CardinalRecord)
    (url nm : List Char) (cnt : Nat) (content : NodeList)
    (hurl : p.profile_url = some url) (hnm : p.name = some nm)
    (hg : env.gotoRes = .ok ()) (hw : env.whsCount = .ok cnt) (hcnt : cnt ≠ 0)
    (hc : env.contentRes = .ok content) :
    (extract_issues_from_html content ≠ [] →
      check_and_extract_where_he_stands env p =
        .ok { p with attributes := some (extract_issues_from_html content) }) ∧
    (extract_issues_from_html content = [] →
      check_and_extract_where_he_stands env p = .ok p) := by
  have hrun := check_full_run hurl hnm hg hw hcnt hc
  constructor
  · intro hne
    have hempty : (extract_issues_from_html content).isEmpty = false := by
      cases hx : extract_issues_from_html content with
      | nil => exact absurd hx hne
      | cons a as => rfl
    rw [hrun, hempty]
    simp
  · intro hnil
    rw [hrun, hnil]
    rfl

/-- Witness for C9: a run over `whsDoc4` replaces `attributes` with the
extracted record, and a run over the empty stands section leaves the record
unchanged. -/
theorem C9_first_pass_assignment_witness :
    check_and_extract_where_he_stands envPage4 cardWithAttr =
      .ok { cardWithAttr with attributes := some [attr4] } ∧
    check_and_extract_where_he_stands envPageEmpty cardX = .ok cardX := by
  constructor
  · have h := (C9_first_pass_assignment envPage4 cardWithAttr
      "http://site/x".toList "X".toList 1 whsDoc4 rfl rfl rfl rfl
      (by decide) rfl).1
      (by rw [show extract_issues_from_html whsDoc4 = [attr4] from rfl]; simp)
    rw [h]
    rfl
  · exact (C9_first_pass_assignment envPageEmpty cardX
      "http://site/x".toList "X".toList 1 docWhsEmpty rfl rfl rfl rfl
      (by decide) rfl).2 rfl

/-- C10: the extractor processes exactly the accordion headings below the
stands container, and a heading whose parent element holds no
`accordion-details` block contributes no record at all — its issue title is
dropped rather than emitted with sentinel values. -/
theorem C10_heading_without_details_dropped :
    (∀ soup whs, (listAll soup).find? isWhereHeStands = some whs →
      extract_issues_from_html soup =
        (((nodePairs whs).filter (fun q => isHeadingDiv q.2)).map
          (fun q => processItem q.1 q.2)).flatten) ∧
    (∀ parent item, (∀ d ∈ descendantsOf parent, isDetailsDiv d = false) →
      processItem parent item = []) := by
  constructor
  · intro soup whs hfind
    rw [extract_issues_from_html, hfind]
  · intro parent item h
    exact processItem_eq_nil_of_no_details h

/-- Witness for C10 on a concrete document whose only heading lacks a
details block: the item yields nothing and the whole extraction is empty. -/
theorem C10_heading_without_details_dropped_witness :
    processItem wrapperNoDetails headingNoDetails = [] ∧
    extract_issues_from_html docC10 =
      (((nodePairs whsNoDetails).filter (fun q => isHeadingDiv q.2)).map
        (fun q => processItem q.1 q.2)).flatten := by
  constructor
  · exact C10_heading_without_details_dropped.2 wrapperNoDetails
      headingNoDetails (by decide)
  · exact C10_heading_without_details_dropped.1 docC10 whsNoDetails rfl

/-- C2: the hidden-fragment extraction.  A fragment whose stripped text
contains `[value] => N` (first such occurrence, `N` a maximal digit run)
yields `value = N`; one containing `[label] => L` (first occurrence, `L` the
maximal non-`)` capture) yields `label = L.strip()`; a fragment admitting
neither pattern yields the `"Unknown"` sentinel for both. -/
theorem C2_extractor_patterns :
    (∀ t pre ws ds post : List Char,
      pyStrip t = pre ++ (valueLit ++ (ws ++ (ds ++ post))) →
      (∀ i, i < pre.length → valueLit.isPrefixOf ((pyStrip t).drop i) = false) →
      ws.all isSpaceCh = true → ds ≠ [] → ds.all isDigitCh = true →
      headNotDigit post = true → fragValue t = ds) ∧
    (∀ t pre ws L post : List Char,
      pyStrip t = pre ++ (labelLit ++ (ws ++ (L ++ post))) →
      (∀ i, i < pre.length → labelLit.isPrefixOf ((pyStrip t).drop i) = false) →
      ws.all isSpaceCh = true → L ≠ [] → L.all (fun c => c != ')') = true →
      headRParenOrNil post = true → fragLabel t = pyStrip L) ∧
    (∀ t : List Char,
      (¬ ∃ pre ws ds post, pyStrip t = pre ++ (valueLit ++ (ws ++ (ds ++ post))) ∧
        (∀ c ∈ ws, isSpaceCh c = true) ∧ ds ≠ [] ∧
        (∀ c ∈ ds, isDigitCh c = true)) →
      (¬ ∃ pre ws L post, pyStrip t = pre ++ (labelLit ++ (ws ++ (L ++ post))) ∧
        (∀ c ∈ ws, isSpaceCh c = true) ∧ L ≠ [] ∧
        (∀ c ∈ L, (c != ')') = true)) →
      fragValue t = unknownS ∧ fragLabel t = unknownS) := by
  refine ⟨?_, ?_, ?_⟩
  · intro t pre ws ds post hs hpre hws hne hds hpost
    exact fragValue_eq_of_decomp hs hpre hws hne hds hpost
  · intro t pre ws L post hs hpre hws hne hL hpost
    exact fragLabel_eq_of_decomp hs hpre hws hne hL hpost
  · intro t hv hl
    exact ⟨fragValue_unknown_of_no_decomp hv, fragLabel_unknown_of_no_decomp hl⟩

/-- Witness for C2 on the realistic fragment
`Array ( [value] => 4 [label] => Supports )` and the pattern-free fragment
`abc`. -/
theorem C2_extractor_patterns_witness :
    fragValue "Array ( [value] => 4 [label] => Supports )".toList = "4".toList ∧
    fragLabel "Array ( [value] => 4 [label] => Supports )".toList
      = "Supports".toList ∧
    fragValue "abc".toList = unknownS ∧ fragLabel "abc".toList = unknownS := by
  have hval := C2_extractor_patterns.1
    "Array ( [value] => 4 [label] => Supports )".toList
    "Array ( ".toList " ".toList "4".toList " [label] => Supports )".toList
    (by decide) (by decide) (by decide) (by decide) (by decide) (by decide)
  have hlab := C2_extractor_patterns.2.1
    "Array ( [value] => 4 [label] => Supports )".toList
    "Array ( [value] => 4 ".toList " ".toList "Supports ".toList ")".toList
    (by decide) (by decide) (by decide) (by decide) (by decide) (by decide)
  have habc := C2_extractor_patterns.2.2 "abc".toList ?hv ?hl
  case hv =>
    rintro ⟨pre, ws, ds, post, heq, -, hne, -⟩
    have hstrip : pyStrip "abc".toList = "abc".toList := by decide
    rw [hstrip] at heq
    have hlen := congrArg List.length heq
    simp only [List.length_append] at hlen
    have h3 : ("abc".toList).length = 3 := rfl
    have h10 : valueLit.length = 10 := rfl
    rw [h3, h10] at hlen
    omega
  case hl =>
    rintro ⟨pre, ws, L, post, heq, -, hne, -⟩
    have hstrip : pyStrip "abc".toList = "abc".toList := by decide
    rw [hstrip] at heq
    have hlen := congrArg List.length heq
    simp only [List.length_append] at hlen
    have h3 : ("abc".toList).length = 3 := rfl
    have h10 : labelLit.length = 10 := rfl
    rw [h3, h10] at hlen
    omega
  refine ⟨hval, ?_, habc.1, habc.2⟩
  rw [hlab]
  decide

/-- C1 counterexample: on the response text `"{a}"` (a five-character string
that is itself valid JSON), the first-`'{'`/last-`'}'` substring `{a}` fails
to parse, and the code returns the error object immediately — it never
attempts the raw text, although the raw text parses as the JSON string
`{a}`.  The claim's "if that parse fails, it attempts to parse the raw
response text" is therefore false: both attempts did not fail, yet the error
object is returned. -/
theorem C1_counterexample :
    parseResponse "\"\x7ba\x7d\"".toList = errObj "\"\x7ba\x7d\"".toList ∧
    jsonLoads "\"\x7ba\x7d\"".toList = some (.jstr "\x7ba\x7d".toList) :=
  ⟨rfl, rfl⟩

/-- C1 amended: the parser locates the first `'{'` and last `'}'`; when such
a pair exists it parses only that substring and a failure yields the error
object directly (no raw-text fallback); only when no such pair exists is the
raw text parsed, a failure again yielding the error object; and the caller
skips attribute conversion for an entity whose response failed to parse,
without raising. -/
theorem C1_amended_parse_policy :
    (∀ t v, bracesFound t = true → jsonLoads (braceSlice t) = some v →
      parseResponse t = v) ∧
    (∀ t, bracesFound t = true → jsonLoads (braceSlice t) = none →
      parseResponse t = errObj t) ∧
    (∀ t v, bracesFound t = false → jsonLoads t = some v →
      parseResponse t = v) ∧
    (∀ t, bracesFound t = false → jsonLoads t = none →
      parseResponse t = errObj t) ∧
    (∀ env c (text : List Char), env.apiRes = .ok text →
      (if bracesFound text then jsonLoads (braceSlice text)
       else jsonLoads text) = none →
      processCardinal env c = .ok c) := by
  refine ⟨?_, ?_, ?_, ?_, ?_⟩
  · intro t v hb hj
    rw [parseResponse, if_pos hb, hj]
  · intro t hb hj
    rw [parseResponse, if_pos hb, hj]
  · intro t v hb hj
    rw [parseResponse, if_neg (by simp [hb]), hj]
  · intro t hb hj
    rw [parseResponse, if_neg (by simp [hb]), hj]
  · intro env c text hapi hfail
    have hresp : parseResponse text = errObj text := by
      rw [parseResponse]
      cases hb : bracesFound text with
      | true =>
        rw [if_pos rfl]
        rw [hb] at hfail
        rw [if_pos rfl] at hfail
        rw [hfail]
      | false =>
        rw [if_neg (by simp)]
        rw [hb] at hfail
        rw [if_neg (by simp)] at hfail
        rw [hfail]
    have hana : analyze_cardinal_profile env = errObj text := by
      rw [analyze_cardinal_profile, hapi]
      exact hresp
    refine processCardinal_skip_error_analysis ?_
    rw [hana]
    rfl

/-- Witness for C1 amended: the prose-wrapped response of the spec's
scenario B parses via the brace slice, and a response that is not JSON at
all makes the caller skip the entity unchanged. -/
theorem C1_amended_parse_policy_witness :
    parseResponse "Here is the result: \x7b\"a\": 1\x7d".toList
      = .jobj (.ocons "a".toList (.jnum 1) .onil) ∧
    processCardinal envParseFail cardX = .ok cardX := by
  constructor
  · exact C1_amended_parse_policy.1
      "Here is the result: \x7b\"a\": 1\x7d".toList
      (.jobj (.ocons "a".toList (.jnum 1) .onil)) rfl rfl
  · exact C1_amended_parse_policy.2.2.2.2 envParseFail cardX
      "not json at all".toList rfl rfl

/-- C4 counterexample: a response that parses to
`{"theological_stance": {"conservative": {}}}` passes the `"error"` check,
but `convert_to_attributes` raises `KeyError` on the missing `"rating"` key;
nothing catches it, so the run terminates instead of skipping the entity —
refuting "no per-entity failure terminates the run". -/
theorem C4_counterexample :
    process_cardinals [(envBadAnalysis, cardX)] = .error .keyError := rfl

/-- C4 amended: failures inside the guarded regions are swallowed at the
entity boundary — any browser exception in the first pass returns the record
unchanged, and in the second pass a failed profile fetch or an analysis
carrying an `"error"` key skips the entity while processing continues — but
an exception raised outside those regions (such as the conversion of a
malformed successful analysis) propagates and aborts the run. -/
theorem C4_amended_error_boundaries :
    (∀ env p (url nm : List Char), p.profile_url = some url → p.name = some nm →
      ((∃ m, env.gotoRes = .error m) ∨ (∃ m, env.whsCount = .error m) ∨
        (∃ m, env.contentRes = .error m)) →
      check_and_extract_where_he_stands env p = .ok p) ∧
    (∀ env c, ((∃ m, env.fetchEnv.httpRes = .error m) ∨
        pyIn errK (analyze_cardinal_profile env) = .ok true) →
      processCardinal env c = .ok c) ∧
    (∀ env c rest, ((∃ m, env.fetchEnv.httpRes = .error m) ∨
        pyIn errK (analyze_cardinal_profile env) = .ok true) →
      process_cardinals ((env, c) :: rest) =
        (process_cardinals rest).map (c :: ·)) := by
  have hskip : ∀ env c, ((∃ m, env.fetchEnv.httpRes = .error m) ∨
      pyIn errK (analyze_cardinal_profile env) = .ok true) →
      processCardinal env c = .ok c := by
    intro env c h
    rcases h with ⟨m, hm⟩ | herr
    · exact processCardinal_skip_fetch_err hm
    · exact processCardinal_skip_error_analysis herr
  refine ⟨?_, hskip, ?_⟩
  · intro env p url nm hurl hnm herr
    exact check_unchanged_of_guarded_error hurl hnm herr
  · intro env c rest h
    exact process_cardinals_cons_of_skip rest (hskip env c h)

/-- Witness for C4 amended: a navigation timeout leaves the entity
untouched, and a refused profile fetch skips the entity while the (empty)
rest of the run still completes. -/
theorem C4_amended_error_boundaries_witness :
    check_and_extract_where_he_stands envGotoErr cardX = .ok cardX ∧
    process_cardinals [(envFetchErr, cardX)] = .ok [cardX] := by
  constructor
  · exact C4_amended_error_boundaries.1 envGotoErr cardX
      "http://site/x".toList "X".toList rfl rfl
      (Or.inl ⟨"net::ERR_TIMED_OUT".toList, rfl⟩)
  · have h := C4_amended_error_boundaries.2.2 envFetchErr cardX []
      (Or.inl ⟨"connection refused".toList, rfl⟩)
    rw [h]
    rfl

/-- C5 counterexample: the page fragment `[value] => 9 [label] => Whatever`
produces the record `value = "9"`, `label = "Whatever"` — `9` is not in
`[1,5]` and neither field is the `"Unknown"` sentinel, refuting the claimed
invariant for extractor-produced attributes. -/
theorem C5_counterexample :
    extract_issues_from_html whsDoc9 = [attr9] ∧ ¬ attrValueInvariant attr9 := by
  refine ⟨rfl, ?_⟩
  rintro (⟨n, h1, h5, hok⟩ | ⟨hv, -⟩)
  · have h9 : pyIntOfStr attr9.value = .ok 9 := rfl
    rw [h9] at hok
    have : (9 : Int) = n := by injection hok
    omega
  · exact absurd hv (by decide)

/-- C5 amended: what each source actually guarantees.  Every
extractor-produced record's `value` is a non-empty decimal digit string (any
magnitude) or `"Unknown"`, with `label` defaulting independently; every
converter-produced record's `value` is `str(rating)` with `label` derived
from the same rating by the fixed lookup (so the [1,5] bound holds only when
the reasoning service returns an in-range integer). -/
theorem C5_amended_value_shape :
    (∀ soup a, a ∈ extract_issues_from_html soup →
      (a.value ≠ [] ∧ ∀ c ∈ a.value, isDigitCh c = true) ∨
        a.value = unknownS) ∧
    (∀ analysis attrs a, convert_to_attributes analysis = .ok attrs →
      a ∈ attrs → ∃ rv, a.value = pyStr rv ∧
        a.label = get_label_for_rating rv) := by
  constructor
  · intro soup a ha
    obtain ⟨title, c, rfl⟩ := mem_extract_record ha
    exact contentRecord_value_shape title c
  · intro analysis attrs a hconv ha
    exact convert_ok_mem hconv ha

/-- Witness for C5 amended at the `whsDoc9` record and the converter output
for `goodText`. -/
theorem C5_amended_value_shape_witness :
    ((attr9.value ≠ [] ∧ ∀ c ∈ attr9.value, isDigitCh c = true) ∨
      attr9.value = unknownS) ∧
    (∃ rv, attrTheoCons4.value = pyStr rv ∧
      attrTheoCons4.label = get_label_for_rating rv) := by
  constructor
  · exact C5_amended_value_shape.1 whsDoc9 attr9
      (by rw [show extract_issues_from_html whsDoc9 = [attr9] from rfl]; simp)
  · exact C5_amended_value_shape.2 (parseResponse goodText) [attrTheoCons4]
      attrTheoCons4 rfl (by simp)

/-- C7 counterexample: an entity without `profile_url` crashes the first
(page-scraping) pass with `KeyError` — the access on line 20 of
`profile_scraper.py` sits before the `try` — so the orchestrator does not
skip it. -/
theorem C7_counterexample :
    process_all_cardinals
      [({ gotoRes := .ok (), whsCount := .ok 1, loadIters := [],
          contentRes := .ok NodeList.nil }, cardNoUrl)]
      = .error .keyError := rfl

/-- C7 amended: only the reasoning pass skips an entity lacking
`profile_url` (leaving it unchanged and continuing with the rest); the
page-scraping pass raises `KeyError` on such an entity and the run
terminates. -/
theorem C7_amended_skip_semantics :
    (∀ env c, c.profile_url = none → processCardinal env c = .ok c) ∧
    (∀ env c rest, c.profile_url = none →
      process_cardinals ((env, c) :: rest) =
        (process_cardinals rest).map (c :: ·)) ∧
    (∀ env c, c.profile_url = none →
      check_and_extract_where_he_stands env c = .error .keyError) ∧
    (∀ env c rest, c.profile_url = none →
      process_all_cardinals ((env, c) :: rest) = .error .keyError) := by
  refine ⟨?_, ?_, ?_, ?_⟩
  · intro env c h
    exact processCardinal_skip_no_url h
  · intro env c rest h
    exact process_cardinals_cons_of_skip rest (processCardinal_skip_no_url h)
  · intro env c h
    exact check_keyError_no_url h
  · intro env c rest h
    rw [process_all_cardinals, check_keyError_no_url h]

/-- Witness for C7 amended on the concrete url-less entity. -/
theorem C7_amended_skip_semantics_witness :
    process_cardinals [(envFetchErr, cardNoUrl)] = .ok [cardNoUrl] ∧
    check_and_extract_where_he_stands envGotoErr cardNoUrl
      = .error .keyError := by
  constructor
  · have h := C7_amended_skip_semantics.2.1 envFetchErr cardNoUrl [] rfl
    rw [h]
    rfl
  · exact C7_amended_skip_semantics.2.2.1 envGotoErr cardNoUrl rfl

/-- C8: on a successful analysis the merge appends the converted attributes
to the end of the existing `attributes` sequence (an empty one is installed
first when the key is absent), never replacing and never deduplicating, and
stores the analysis object verbatim; re-running the pass on the already
merged record appends the same attributes again. -/
theorem C8_merge_appends (env : ReasonEnv) (c : CardinalRecord)
    (url : List Char) (soup : NodeList) (new_attributes : List Attr)
    (hurl : c.profile_url = some url) (hsoup : env.fetchEnv.httpRes = .ok soup)
    (herr : pyIn errK (analyze_cardinal_profile env) = .ok false)
    (hconv : convert_to_attributes (analyze_cardinal_profile env)
      = .ok new_attributes) :
    processCardinal env c = .ok { c with
      attributes := some (c.attributes.getD [] ++ new_attributes),
      analysis_results := some (analyze_cardinal_profile env) } ∧
    processCardinal env { c with
        attributes := some (c.attributes.getD [] ++ new_attributes),
        analysis_results := some (analyze_cardinal_profile env) } =
      .ok { c with
        attributes := some ((c.attributes.getD [] ++ new_attributes)
          ++ new_attributes),
        analysis_results := some (analyze_cardinal_profile env) } := by
  constructor
  · exact processCardinal_merge hurl hsoup herr hconv
  · exact processCardinal_merge hurl hsoup herr hconv

/-- Witness for C8: an entity already holding one attribute gains the
converted record appended after it, with the analysis stored verbatim. -/
theorem C8_merge_appends_witness :
    processCardinal envGoodC8 cardWithAttr = .ok { cardWithAttr with
      attributes := some (cardWithAttr.attributes.getD [] ++ [attrTheoCons4]),
      analysis_results := some (analyze_cardinal_profile envGoodC8) } :=
  (C8_merge_appends envGoodC8 cardWithAttr "http://site/x".toList
    NodeList.nil [attrTheoCons4] rfl rfl rfl rfl).1
